import Mathlib

/-!
Verification of the instruction executor `sim.c`

A shallow embedding of `src/sim.c` (an ARMv8 subset simulator core) and theorems
about it.

Conventions of the embedding:

* A C value of type `int64_t` or `uint64_t` is represented by its 64-bit
  two's-complement bit pattern, a `Nat` below `2 ^ 64`.  A conversion between
  the two C types is the identity on patterns.  A signed comparison goes
  through `toInt64`.  A 32-bit value is a `Nat` below `2 ^ 32`, read as signed
  through `toInt32`.
* Arithmetic that can leave the range of its C type keeps the low bits
  (explicit `% 2 ^ 64`, `% 2 ^ 32`, or `wrap64` of the exact integer).
* The globals `CURRENT_STATE`, `NEXT_STATE`, `RUN_BIT` and the memory behind
  `mem_read_32` / `mem_write_32` are the fields of `Sim`; every C function
  that touches them takes and returns a `Sim`.
* `printf` diagnostics are not modelled.
-/

namespace ArmSim

/-! ## Data model -/

/-- Architectural state, `CPU_State` of `shell.h`: the program counter, the 32
general-purpose registers and the four condition flags.  `REGS` is indexed by
the register number; the executor only uses the 5-bit indices 0..31. -/
structure CPU_State where
  PC : Nat
  REGS : Nat → Nat
  FLAG_N : Nat
  FLAG_Z : Nat
  FLAG_V : Nat
  FLAG_C : Nat

/-- The simulator globals: the two state buffers, the run flag and the byte
memory (address to byte) that `mem_read_32` and `mem_write_32` access. -/
structure Sim where
  CURRENT_STATE : CPU_State
  NEXT_STATE : CPU_State
  RUN_BIT : Bool
  MEM : Nat → Nat

/-- Signed reading of a 64-bit pattern. -/
def toInt64 (x : Nat) : Int :=
  if x < 2 ^ 63 then (x : Int) else (x : Int) - 2 ^ 64

/-- Signed reading of a 32-bit pattern. -/
def toInt32 (x : Nat) : Int :=
  if x < 2 ^ 31 then (x : Int) else (x : Int) - 2 ^ 32

/-- The 64-bit pattern of an exact integer (conversion to `uint64_t`). -/
def wrap64 (x : Int) : Nat :=
  (x % 2 ^ 64).toNat

/-! ## Memory interface -/

/-- Modelled from the spec: `mem_read_32` of the shell (`shell.c` is not among
the sources).  A total read of four bytes, little-endian, at `address`. -/
def mem_read_32 (mem : Nat → Nat) (address : Nat) : Nat :=
  mem address % 256
    + 256 * (mem (address + 1) % 256)
    + 65536 * (mem (address + 2) % 256)
    + 16777216 * (mem (address + 3) % 256)

/-- Modelled from the spec: `mem_write_32` of the shell (`shell.c` is not among
the sources).  A total write of the low four bytes of `value`, little-endian,
at `address`. -/
def mem_write_32 (mem : Nat → Nat) (address : Nat) (value : Nat) : Nat → Nat :=
  fun a =>
    if a = address then value % 256
    else if a = address + 1 then value / 256 % 256
    else if a = address + 2 then value / 65536 % 256
    else if a = address + 3 then value / 16777216 % 256
    else mem a

/-! ## Register accessor (sim.c lines 6-16) -/

/-- Function `get_reg_value`: register 31 reads as zero, any other register is read
from `CURRENT_STATE`. -/
def get_reg_value (s : Sim) (reg_num : Nat) : Nat :=
  if reg_num = 31 then 0 else s.CURRENT_STATE.REGS reg_num

/-- Function `set_reg_value`: a write to register 31 is dropped, any other write goes
to `NEXT_STATE`. -/
def set_reg_value (s : Sim) (reg_num : Nat) (value : Nat) : Sim :=
  if reg_num ≠ 31 then
    { s with NEXT_STATE :=
        { s.NEXT_STATE with
          REGS := fun i => if i = reg_num then value else s.NEXT_STATE.REGS i } }
  else s

/-! ## Flag computation (sim.c lines 18-36) -/

/-- Function `update_flags(int64_t result)`: Z and N from a signed result. -/
def update_flags (s : Sim) (result : Nat) : Sim :=
  { s with NEXT_STATE :=
      { s.NEXT_STATE with
        FLAG_Z := if result = 0 then 1 else 0
        FLAG_N := if toInt64 result < 0 then 1 else 0 } }

/-- Function `update_flags_add(uint64_t a, uint64_t b, uint64_t result)`.  The three
parameters are unsigned, so `result < 0` is the unsigned comparison. -/
def update_flags_add (s : Sim) (a b result : Nat) : Sim :=
  { s with NEXT_STATE :=
      { s.NEXT_STATE with
        FLAG_Z := if result = 0 then 1 else 0
        FLAG_N := if result < 0 then 1 else 0
        FLAG_C := if result < a then 1 else 0
        FLAG_V := (((a ^^^ result) &&& (b ^^^ result)) >>> 63) &&& 1 } }

/-- Function `update_flags_sub(uint64_t a, uint64_t b, uint64_t result)`.  The three
parameters are unsigned, so `result < 0` is the unsigned comparison. -/
def update_flags_sub (s : Sim) (a b result : Nat) : Sim :=
  { s with NEXT_STATE :=
      { s.NEXT_STATE with
        FLAG_Z := if result = 0 then 1 else 0
        FLAG_N := if result < 0 then 1 else 0
        FLAG_C := if a ≥ b then 1 else 0
        FLAG_V := (((a ^^^ b) &&& (a ^^^ result)) >>> 63) &&& 1 } }

/-! ## Field decoder (sim.c lines 39-55) -/

/-- Function `extract_imm9`: bits [20:12], sign-extended from bit 8 in an `int32_t`
(`0xFFFFFE00` is or-ed into the 32-bit pattern). -/
def extract_imm9 (instruction : Nat) : Int :=
  let imm9 := (instruction >>> 12) &&& 0x1FF
  let imm9 := if imm9 &&& 0x100 ≠ 0 then imm9 ||| 0xFFFFFE00 else imm9
  toInt32 imm9

/-- Function `extract_imm19`: bits [23:5], sign-extended from bit 18 in an `int32_t`
(`~((1 << 19) - 1)` is the 32-bit pattern `0xFFF80000`), then shifted left by
two within 32 bits. -/
def extract_imm19 (instruction : Nat) : Int :=
  let imm19 := (instruction >>> 5) &&& 0x7FFFF
  let imm19 := if imm19 &&& (1 <<< 18) ≠ 0 then imm19 ||| 0xFFF80000 else imm19
  toInt32 ((imm19 <<< 2) % 2 ^ 32)

/-! ## Instruction dispatcher (sim.c lines 57-430) -/

/-- The closing statement of `process_instruction`, line 428:
`NEXT_STATE.PC = CURRENT_STATE.PC + 4` in `uint64_t`. -/
def advance_pc (s : Sim) : Sim :=
  { s with NEXT_STATE := { s.NEXT_STATE with PC := (s.CURRENT_STATE.PC + 4) % 2 ^ 64 } }

/-- A direct assignment `NEXT_STATE.PC = value` of a branching handler. -/
def set_next_pc (s : Sim) (value : Nat) : Sim :=
  { s with NEXT_STATE := { s.NEXT_STATE with PC := value } }

/-- The `B.cond` handler, lines 68-108.  `none` of the inner switch is its
`default` label. -/
def b_cond (s : Sim) (instruction : Nat) : Sim :=
  let flag_n := s.CURRENT_STATE.FLAG_N
  let flag_z := s.CURRENT_STATE.FLAG_Z
  let cond := instruction &&& 0xF
  let imm19 := extract_imm19 instruction
  let new_address := wrap64 ((s.CURRENT_STATE.PC : Int) + imm19)
  let should_branch : Option Bool :=
    if cond = 0x0 then some (decide (flag_z = 1))
    else if cond = 0x1 then some (decide (flag_z = 0))
    else if cond = 0xC then some (decide (flag_z = 0) && decide (flag_n = 0))
    else if cond = 0xB then some (decide (flag_n = 1))
    else if cond = 0xA then some (decide (flag_n = 0))
    else if cond = 0xD then some (decide (flag_z = 1) || decide (flag_n = 1))
    else none
  match should_branch with
  | none => set_next_pc s ((s.CURRENT_STATE.PC + 4) % 2 ^ 64)
  | some true => set_next_pc s new_address
  | some false => set_next_pc s ((s.CURRENT_STATE.PC + 4) % 2 ^ 64)

/-- The 11-bit opcode of line 60: `(instruction >> 21) & 0x7FF`. -/
def field_opcode (instruction : Nat) : Nat :=
  (instruction >>> 21) &&& 0x7FF

/-- The 8-bit opcode of line 61: `(instruction >> 24) & 0xFF`. -/
def field_opcode_high (instruction : Nat) : Nat :=
  (instruction >>> 24) &&& 0xFF

/-- The register field of line 63: `instruction & 0x1F`. -/
def field_Rd (instruction : Nat) : Nat :=
  instruction &&& 0x1F

/-- The register field of line 64: `(instruction >> 5) & 0x1F`. -/
def field_Rn (instruction : Nat) : Nat :=
  (instruction >>> 5) &&& 0x1F

/-- The register field of line 65: `(instruction >> 16) & 0x1F`. -/
def field_Rm (instruction : Nat) : Nat :=
  (instruction >>> 16) &&& 0x1F

/-- The fetch of line 59: `mem_read_32(CURRENT_STATE.PC)`. -/
def fetch (s : Sim) : Nat :=
  mem_read_32 s.MEM s.CURRENT_STATE.PC

/-! ### The bodies of the `case` labels of the opcode switch, lines 111-425

Each definition is the block of one `case`, up to its `break` or `return`. -/

/-- Body of `case 0x6A2` (HLT): `RUN_BIT = FALSE`. -/
def case_HLT (s : Sim) : Sim :=
  { s with RUN_BIT := false }

/-- Body of `case 0x558` (ADDS Register). -/
def case_ADDS_reg (s : Sim) (instruction : Nat) : Sim :=
  let reg_Xn := get_reg_value s (field_Rn instruction)
  let reg_Xm := get_reg_value s (field_Rm instruction)
  let result := (reg_Xn + reg_Xm) % 2 ^ 64
  update_flags_add (set_reg_value s (field_Rd instruction) result) reg_Xn reg_Xm result

/-- Body of `case 0x758` (SUBS Register, also CMP when `Rd = 31`). -/
def case_SUBS_reg (s : Sim) (instruction : Nat) : Sim :=
  let reg_Xn := get_reg_value s (field_Rn instruction)
  let reg_Xm := get_reg_value s (field_Rm instruction)
  let result := wrap64 ((reg_Xn : Int) - (reg_Xm : Int))
  update_flags_sub (set_reg_value s (field_Rd instruction) result) reg_Xn reg_Xm result

/-- Body of `case 0x588` (ADDS Immediate). -/
def case_ADDS_imm (s : Sim) (instruction : Nat) : Sim :=
  let imm12 := (instruction >>> 10) &&& 0xFFF
  let reg_Xn := get_reg_value s (field_Rn instruction)
  let imm := imm12
  let result := (reg_Xn + imm) % 2 ^ 64
  update_flags_add (set_reg_value s (field_Rd instruction) result) reg_Xn imm result

/-- Body of `case 0x788` (SUBS Immediate, also CMP when `Rd = 31`); `imm12 <<= 12` is a
32-bit shift. -/
def case_SUBS_imm (s : Sim) (instruction : Nat) : Sim :=
  let imm12 := (instruction >>> 10) &&& 0xFFF
  let shift := (instruction >>> 22) &&& 0x3
  let imm12 := if shift = 1 then (imm12 <<< 12) % 2 ^ 32 else imm12
  let reg_Xn := get_reg_value s (field_Rn instruction)
  let result := wrap64 ((reg_Xn : Int) - (imm12 : Int))
  update_flags_sub (set_reg_value s (field_Rd instruction) result) reg_Xn imm12 result

/-- Body of `case 0x5d0` (ADCS); the second argument of `update_flags_add` is the
64-bit sum `reg_Xm + carry`. -/
def case_ADCS (s : Sim) (instruction : Nat) : Sim :=
  let reg_Xn := get_reg_value s (field_Rn instruction)
  let reg_Xm := get_reg_value s (field_Rm instruction)
  let carry := s.CURRENT_STATE.FLAG_C
  let result := (reg_Xn + reg_Xm + carry) % 2 ^ 64
  update_flags_add (set_reg_value s (field_Rd instruction) result) reg_Xn
    ((reg_Xm + carry) % 2 ^ 64) result

/-- Body of `case 0x750` (ANDS). -/
def case_ANDS (s : Sim) (instruction : Nat) : Sim :=
  let reg_Xn := get_reg_value s (field_Rn instruction)
  let reg_Xm := get_reg_value s (field_Rm instruction)
  let result := reg_Xn &&& reg_Xm
  update_flags (set_reg_value s (field_Rd instruction) result) result

/-- Body of `case 0x650` (EOR). -/
def case_EOR (s : Sim) (instruction : Nat) : Sim :=
  let reg_Xn := get_reg_value s (field_Rn instruction)
  let reg_Xm := get_reg_value s (field_Rm instruction)
  let result := reg_Xn ^^^ reg_Xm
  set_reg_value s (field_Rd instruction) result

/-- Body of `case 0x550` (ORR). -/
def case_ORR (s : Sim) (instruction : Nat) : Sim :=
  let reg_Xn := get_reg_value s (field_Rn instruction)
  let reg_Xm := get_reg_value s (field_Rm instruction)
  let result := reg_Xn ||| reg_Xm
  set_reg_value s (field_Rd instruction) result

/-- Body of `case 0x0A0` (B); ends in `return`.  The offset is
`((int64_t)((int32_t)(imm26 << 6)) >> 6) * 4` with an arithmetic right shift. -/
def case_B (s : Sim) (instruction : Nat) : Sim :=
  let imm26 := instruction &&& 0x03FFFFFF
  let offset := (toInt32 ((imm26 <<< 6) % 2 ^ 32) >>> 6) * 4
  set_next_pc s (wrap64 ((s.CURRENT_STATE.PC : Int) + offset))

/-- Body of `case 0x6B0` (BR); ends in `return`. -/
def case_BR (s : Sim) (instruction : Nat) : Sim :=
  set_next_pc s (s.CURRENT_STATE.REGS (field_Rn instruction))

/-- Body of `case 0x694` (MOVZ); the `hw` field only triggers a diagnostic. -/
def case_MOVZ (s : Sim) (instruction : Nat) : Sim :=
  let imm16 := (instruction >>> 5) &&& 0xFFFF
  let result := imm16
  set_reg_value s (field_Rd instruction) result

/-- Body of `case 0x69A` (LSL Immediate). -/
def case_LSL (s : Sim) (instruction : Nat) : Sim :=
  let immr := (instruction >>> 10) &&& 0x3F
  let shift := 63 - immr
  let src := s.CURRENT_STATE.REGS (field_Rn instruction)
  let result := (src <<< shift) % 2 ^ 64
  update_flags (set_reg_value s (field_Rd instruction) result) result

/-- Body of `case 0x69B` (LSR). -/
def case_LSR (s : Sim) (instruction : Nat) : Sim :=
  let imms := (instruction >>> 16) &&& 0x3F
  let shift := imms
  let src := s.CURRENT_STATE.REGS (field_Rn instruction)
  let result := src >>> shift
  update_flags (set_reg_value s (field_Rd instruction) result) result

/-- Body of `case 0x7c0` (STUR); `address` is a `uint32_t`, and `mem_write_32` takes
the low 32 bits of the register. -/
def case_STUR (s : Sim) (instruction : Nat) : Sim :=
  let imm9 := extract_imm9 instruction
  let address := (((s.CURRENT_STATE.REGS (field_Rn instruction) : Int) + imm9) % 2 ^ 32).toNat
  { s with MEM := mem_write_32 s.MEM address (s.CURRENT_STATE.REGS (field_Rd instruction)) }

/-- Body of `case 0x1c0` (STURB); `address` and `value` are `uint32_t`. -/
def case_STURB (s : Sim) (instruction : Nat) : Sim :=
  let imm9 := extract_imm9 instruction
  let address := (((s.CURRENT_STATE.REGS (field_Rn instruction) : Int) + imm9) % 2 ^ 32).toNat
  let value := mem_read_32 s.MEM address
  let value := ((value &&& 0xFFFFFF00)
    ||| (s.CURRENT_STATE.REGS (field_Rd instruction) &&& 0xFF)) % 2 ^ 32
  { s with MEM := mem_write_32 s.MEM address value }

/-- Body of `case 0x3E1` (STURH); `address` and `value` are `uint32_t`. -/
def case_STURH (s : Sim) (instruction : Nat) : Sim :=
  let imm9 := extract_imm9 instruction
  let address := (((s.CURRENT_STATE.REGS (field_Rn instruction) : Int) + imm9) % 2 ^ 32).toNat
  let value := mem_read_32 s.MEM address
  let value := ((value &&& 0xFFFF0000)
    ||| (s.CURRENT_STATE.REGS (field_Rd instruction) &&& 0xFFFF)) % 2 ^ 32
  { s with MEM := mem_write_32 s.MEM address value }

/-- Body of `case 0x7c2` (LDUR); `address` is a `uint64_t`. -/
def case_LDUR (s : Sim) (instruction : Nat) : Sim :=
  let reg_Xn := s.CURRENT_STATE.REGS (field_Rn instruction)
  let offset := extract_imm9 instruction
  let address := wrap64 ((reg_Xn : Int) + offset)
  let low_word := mem_read_32 s.MEM address
  let high_word := mem_read_32 s.MEM ((address + 4) % 2 ^ 64)
  let value := ((high_word <<< 32) % 2 ^ 64) ||| low_word
  set_reg_value s (field_Rd instruction) value

/-- Body of `case 0x1c2` (LDURB). -/
def case_LDURB (s : Sim) (instruction : Nat) : Sim :=
  let reg_Xn := s.CURRENT_STATE.REGS (field_Rn instruction)
  let offset := extract_imm9 instruction
  let address := wrap64 ((reg_Xn : Int) + offset)
  let word := mem_read_32 s.MEM address
  let byte := word &&& 0xFF
  set_reg_value s (field_Rd instruction) byte

/-- Body of `case 0x3c2` (LDURH). -/
def case_LDURH (s : Sim) (instruction : Nat) : Sim :=
  let reg_Xn := s.CURRENT_STATE.REGS (field_Rn instruction)
  let offset := extract_imm9 instruction
  let address := wrap64 ((reg_Xn : Int) + offset)
  let word := mem_read_32 s.MEM address
  let halfword := word &&& 0xFFFF
  set_reg_value s (field_Rd instruction) halfword

/-- Body of `case 0x458` (ADD Register). -/
def case_ADD_reg (s : Sim) (instruction : Nat) : Sim :=
  let reg_Xn := get_reg_value s (field_Rn instruction)
  let reg_Xm := get_reg_value s (field_Rm instruction)
  let result := (reg_Xn + reg_Xm) % 2 ^ 64
  set_reg_value s (field_Rd instruction) result

/-- Body of `case 0x488` (ADD Immediate); `imm12 << 12` is a 32-bit shift. -/
def case_ADD_imm (s : Sim) (instruction : Nat) : Sim :=
  let imm12 := (instruction >>> 10) &&& 0xFFF
  let shift := (instruction >>> 22) &&& 0x3
  let reg_Xn := get_reg_value s (field_Rn instruction)
  let imm := if shift = 1 then (imm12 <<< 12) % 2 ^ 32 else imm12
  let result := (reg_Xn + imm) % 2 ^ 64
  set_reg_value s (field_Rd instruction) result

/-- Body of `case 0x4D8` (MUL). -/
def case_MUL (s : Sim) (instruction : Nat) : Sim :=
  let reg_Xn := get_reg_value s (field_Rn instruction)
  let reg_Xm := get_reg_value s (field_Rm instruction)
  let result := (reg_Xn * reg_Xm) % 2 ^ 64
  set_reg_value s (field_Rd instruction) result

/-- Body of `case 0x5A0` (CBZ); ends in `return`.  The tested register is read
directly from `CURRENT_STATE.REGS[Rd]`. -/
def case_CBZ (s : Sim) (instruction : Nat) : Sim :=
  let reg_value := s.CURRENT_STATE.REGS (field_Rd instruction)
  let imm19 := extract_imm19 instruction
  if reg_value = 0 then
    set_next_pc s (wrap64 ((s.CURRENT_STATE.PC : Int) + imm19))
  else
    set_next_pc s ((s.CURRENT_STATE.PC + 4) % 2 ^ 64)

/-- Body of `case 0x5A8` (CBNZ); ends in `return`. -/
def case_CBNZ (s : Sim) (instruction : Nat) : Sim :=
  let reg_value := s.CURRENT_STATE.REGS (field_Rd instruction)
  let imm19 := extract_imm19 instruction
  if reg_value ≠ 0 then
    set_next_pc s (wrap64 ((s.CURRENT_STATE.PC : Int) + imm19))
  else
    set_next_pc s ((s.CURRENT_STATE.PC + 4) % 2 ^ 64)

/-- Function `process_instruction`: fetch the word at `CURRENT_STATE.PC`, decode it and
run one handler.  The `switch` on the 11-bit opcode is the chain of tests
below, in the order of the source; a case that ends in `break` goes on to
`advance_pc` (line 428), one that ends in `return` does not. -/
def process_instruction (s : Sim) : Sim :=
  let instruction := fetch s
  let opcode := field_opcode instruction
  let opcode_high := field_opcode_high instruction
  if opcode_high = 0x54 then b_cond s instruction
  else if opcode = 0x6A2 then advance_pc (case_HLT s)
  else if opcode = 0x558 then advance_pc (case_ADDS_reg s instruction)
  else if opcode = 0x758 then advance_pc (case_SUBS_reg s instruction)
  else if opcode = 0x588 then advance_pc (case_ADDS_imm s instruction)
  else if opcode = 0x788 then advance_pc (case_SUBS_imm s instruction)
  else if opcode = 0x5d0 then advance_pc (case_ADCS s instruction)
  else if opcode = 0x750 then advance_pc (case_ANDS s instruction)
  else if opcode = 0x650 then advance_pc (case_EOR s instruction)
  else if opcode = 0x550 then advance_pc (case_ORR s instruction)
  else if opcode = 0x0A0 then case_B s instruction
  else if opcode = 0x6B0 then case_BR s instruction
  else if opcode = 0x694 then advance_pc (case_MOVZ s instruction)
  else if opcode = 0x69A then advance_pc (case_LSL s instruction)
  else if opcode = 0x69B then advance_pc (case_LSR s instruction)
  else if opcode = 0x7c0 then advance_pc (case_STUR s instruction)
  else if opcode = 0x1c0 then advance_pc (case_STURB s instruction)
  else if opcode = 0x3E1 then advance_pc (case_STURH s instruction)
  else if opcode = 0x7c2 then advance_pc (case_LDUR s instruction)
  else if opcode = 0x1c2 then advance_pc (case_LDURB s instruction)
  else if opcode = 0x3c2 then advance_pc (case_LDURH s instruction)
  else if opcode = 0x458 then advance_pc (case_ADD_reg s instruction)
  else if opcode = 0x488 then advance_pc (case_ADD_imm s instruction)
  else if opcode = 0x4D8 then advance_pc (case_MUL s instruction)
  else if opcode = 0x5A0 then case_CBZ s instruction
  else if opcode = 0x5A8 then case_CBNZ s instruction
  else advance_pc s

/-! ## Run loop -/

/-- Modelled from the spec: the commit step of the external run loop
(`shell.c` is not among the sources), which copies the staged `NEXT_STATE`
into `CURRENT_STATE` after each dispatch. -/
def commit (s : Sim) : Sim :=
  { s with CURRENT_STATE := s.NEXT_STATE }

/-- Modelled from the spec: one cycle of the external run loop, a dispatch
followed by the commit. -/
def cycle (s : Sim) : Sim :=
  commit (process_instruction s)

/-- The state after `n` cycles. -/
def run : Nat → Sim → Sim
  | 0, s => s
  | n + 1, s => run n (cycle s)

/-! ## Concrete states used in the examples -/

/-- A state with all registers and flags zero, `PC = 0x400000`, and the single
instruction word `w` stored at the program counter. -/
def boot (w : Nat) : Sim :=
  let st : CPU_State :=
    { PC := 0x400000, REGS := fun _ => 0, FLAG_N := 0, FLAG_Z := 0, FLAG_V := 0, FLAG_C := 0 }
  { CURRENT_STATE := st, NEXT_STATE := st, RUN_BIT := true,
    MEM := mem_write_32 (fun _ => 0) 0x400000 w }

/-- Sets register `i` to `v` in both buffers (a state reached after a commit). -/
def with_reg (s : Sim) (i v : Nat) : Sim :=
  { s with
    CURRENT_STATE :=
      { s.CURRENT_STATE with REGS := fun j => if j = i then v else s.CURRENT_STATE.REGS j }
    NEXT_STATE :=
      { s.NEXT_STATE with REGS := fun j => if j = i then v else s.NEXT_STATE.REGS j } }

/-- Sets the carry flag of `CURRENT_STATE` and `NEXT_STATE`. -/
def with_carry (s : Sim) (c : Nat) : Sim :=
  { s with
    CURRENT_STATE := { s.CURRENT_STATE with FLAG_C := c }
    NEXT_STATE := { s.NEXT_STATE with FLAG_C := c } }

/-- State for `ADDS X0, X1, X2` (word `0xAB020020`) with `X1 = 0x7FFFFFFFFFFFFFFF`, `X2 = 1`. -/
def st_adds_signed_overflow : Sim :=
  with_reg (with_reg (boot 0xAB020020) 1 0x7FFFFFFFFFFFFFFF) 2 1

/-- State for `ADDS X0, X1, X2` (word `0xAB020020`) with `X1 = 0xFFFFFFFFFFFFFFFF`, `X2 = 1`. -/
def st_adds_unsigned_wrap : Sim :=
  with_reg (with_reg (boot 0xAB020020) 1 0xFFFFFFFFFFFFFFFF) 2 1

/-- State for `CMP X1, X2`, that is `SUBS XZR, X1, X2` (word `0xEB02003F`), with `X1 = X2 = 5`. -/
def st_cmp_equal : Sim :=
  with_reg (with_reg (boot 0xEB02003F) 1 5) 2 5

/-- State for `ADCS X0, X1, X2` (word `0xBA020020`) with `X1 = 0`, `X2 = 0xFFFFFFFFFFFFFFFF`
and the carry flag set. -/
def st_adcs_carry_in : Sim :=
  with_carry (with_reg (with_reg (boot 0xBA020020) 1 0) 2 0xFFFFFFFFFFFFFFFF) 1

/-- State for `ADDS XZR, X1, X2` (word `0xAB02003F`, destination field 31) with `X1 = 5`,
`X2 = 7`. -/
def st_adds_to_xzr : Sim :=
  with_reg (with_reg (boot 0xAB02003F) 1 5) 2 7

/-- Sets the Z and N flags of `CURRENT_STATE` and `NEXT_STATE`. -/
def with_zn (s : Sim) (z n : Nat) : Sim :=
  { s with
    CURRENT_STATE := { s.CURRENT_STATE with FLAG_Z := z, FLAG_N := n }
    NEXT_STATE := { s.NEXT_STATE with FLAG_Z := z, FLAG_N := n } }

/-- State for `B.EQ` with displacement `-8` (word `0x54FFFFC0`) and Z = 1. -/
def st_beq_back : Sim :=
  with_zn (boot 0x54FFFFC0) 1 0

/-- State for `CBZ X0, -4` (word `0xB4FFFFE0`: bits [31:24] = `0xB4`, `imm19 = 0x7FFFF`,
`Rt = 0`) with `X0 = 0` and `PC = 0x400000`. -/
def st_cbz_back : Sim :=
  boot 0xB4FFFFE0

/-- A state with all registers and flags zero, `PC = 0x400000`, the word `w1`
stored at the program counter and the word `w2` right after it. -/
def boot2 (w1 w2 : Nat) : Sim :=
  let st : CPU_State :=
    { PC := 0x400000, REGS := fun _ => 0, FLAG_N := 0, FLAG_Z := 0, FLAG_V := 0, FLAG_C := 0 }
  { CURRENT_STATE := st, NEXT_STATE := st, RUN_BIT := true,
    MEM := mem_write_32 (mem_write_32 (fun _ => 0) 0x400000 w1) 0x400004 w2 }

/-- State for `B` with displacement `-4` (word `0x17FFFFFF`: bits [31:26] = `0b000101`,
`imm26 = 0x3FFFFFF`) at `PC = 0x400000`. -/
def st_b_back : Sim :=
  boot 0x17FFFFFF

/-- State for `STURB W1, [X2]` (word `0x38000041`) followed by `LDURB W3, [X2]`
(word `0x38400043`), with `X1 = 0xAB` and the base `X2 = 0x100000000`, one
past the 32-bit range. -/
def st_sturb_ldurb_high : Sim :=
  with_reg (with_reg (boot2 0x38000041 0x38400043) 1 0xAB) 2 0x100000000

/-- State for `STUR X1, [X2]` (word `0xF8000041`) followed by `LDUR X3, [X2]`
(word `0xF8400043`), with `X1 = 0x1122334455667788` and `X2 = 0x10000000`. -/
def st_stur_ldur : Sim :=
  with_reg (with_reg (boot2 0xF8000041 0xF8400043) 1 0x1122334455667788) 2 0x10000000

/-- State for `HLT` (word `0xD4400000`) with `X1 = 9`, Z = 1, N = 1 and C = 1. -/
def st_hlt : Sim :=
  with_carry (with_zn (with_reg (boot 0xD4400000) 1 9) 1 1) 1

/-- State for the word `0`, which matches no opcode, with `X1 = 9`, Z = 1, N = 1
and C = 1. -/
def st_unknown : Sim :=
  with_carry (with_zn (with_reg (boot 0) 1 9) 1 1) 1

/-- State for `BR X1` (word `0xD61F0020`) with `X1 = 0x400002`. -/
def st_br_unaligned : Sim :=
  with_reg (boot 0xD61F0020) 1 0x400002

/-- State for `BR X1` (word `0xD61F0020`) with the odd `X1 = 0x400001`. -/
def st_br_odd : Sim :=
  with_reg (boot 0xD61F0020) 1 0x400001

/-- State for `BR X1` (word `0xD61F0020`) with `X1 = 0x400010`. -/
def st_br_aligned : Sim :=
  with_reg (boot 0xD61F0020) 1 0x400010

/-- State for `MUL X0, X1, X2` (word `0x9B027C20`) with `X1 = 3`, `X2 = 5`, Z = 1,
N = 1 and C = 1. -/
def st_mul : Sim :=
  with_carry (with_zn (with_reg (with_reg (boot 0x9B027C20) 1 3) 2 5) 1 1) 1

/-- State for `ADD X0, X1, #1, LSL #12` (word `0x91400420`: bits [31:24] = `0x91`,
shift field 1, `imm12 = 1`) with `X0 = 0x77` and `X1 = 5`. -/
def st_add_imm_lsl12 : Sim :=
  with_reg (with_reg (boot 0x91400420) 0 0x77) 1 5

/-- State for `ADD X0, X1, #7` (word `0x91001C20`: shift field 0, `imm12 = 7`)
with `X1 = 5`. -/
def st_add_imm : Sim :=
  with_reg (boot 0x91001C20) 1 5

/-- State for `MOVZ X0, #1, LSL #16` (word `0xD2A00020`: bits [31:23] =
`0b110100101`, `hw = 1`, `imm16 = 1`) with `X0 = 0x77`. -/
def st_movz_hw1 : Sim :=
  with_reg (boot 0xD2A00020) 0 0x77

/-- State for `lsl X4, X3, 4` (word `0xD37CEC64`, the example of the comment at
the LSL case) with `X3 = 1`. -/
def st_lsl4 : Sim :=
  with_reg (boot 0xD37CEC64) 3 1

/-! ## Bit-field lemmas -/

theorem and_0x7FF (x : Nat) : x &&& 0x7FF = x % 2048 :=
  Nat.and_pow_two_sub_one_eq_mod x 11

theorem and_0xFF (x : Nat) : x &&& 0xFF = x % 256 :=
  Nat.and_pow_two_sub_one_eq_mod x 8

theorem and_0x1F (x : Nat) : x &&& 0x1F = x % 32 :=
  Nat.and_pow_two_sub_one_eq_mod x 5

theorem and_0xF (x : Nat) : x &&& 0xF = x % 16 :=
  Nat.and_pow_two_sub_one_eq_mod x 4

theorem and_0x7FFFF (x : Nat) : x &&& 0x7FFFF = x % 524288 :=
  Nat.and_pow_two_sub_one_eq_mod x 19

/-- The 8-bit field [31:24] is the upper part of the 11-bit field [31:21]. -/
theorem opcode_high_of_opcode (w : Nat) :
    field_opcode_high w = field_opcode w / 8 := by
  unfold field_opcode_high field_opcode
  rw [and_0xFF, and_0x7FF, Nat.shiftRight_eq_div_pow, Nat.shiftRight_eq_div_pow]
  omega

theorem testBit_63 (x : Nat) (hx : x < 2 ^ 64) :
    x.testBit 63 = decide (2 ^ 63 ≤ x) := by
  rw [Nat.testBit_to_div_mod]
  by_cases h : 2 ^ 63 ≤ x
  · simp only [h, decide_True, decide_eq_true_eq]; omega
  · simp only [h, decide_False, decide_eq_false_iff_not]; omega

/-- The overflow expression of `update_flags_add` and `update_flags_sub`:
bit 63 of `(p ^ q) & (u ^ v)` is set when the top bits of `p`, `q` differ and
the top bits of `u`, `v` differ. -/
theorem overflow_bit (p q u v : Nat) (hp : p < 2 ^ 64) (hq : q < 2 ^ 64)
    (hu : u < 2 ^ 64) (hv : v < 2 ^ 64) :
    (((p ^^^ q) &&& (u ^^^ v)) >>> 63) &&& 1
      = if (2 ^ 63 ≤ p ↔ ¬ 2 ^ 63 ≤ q) ∧ (2 ^ 63 ≤ u ↔ ¬ 2 ^ 63 ≤ v) then 1 else 0 := by
  rw [Nat.and_one_is_mod, Nat.shiftRight_eq_div_pow, ← Nat.toNat_testBit,
    Nat.testBit_and, Nat.testBit_xor, Nat.testBit_xor,
    testBit_63 p hp, testBit_63 q hq, testBit_63 u hu, testBit_63 v hv]
  by_cases h1 : 2 ^ 63 ≤ p <;> by_cases h2 : 2 ^ 63 ≤ q <;>
    by_cases h3 : 2 ^ 63 ≤ u <;> by_cases h4 : 2 ^ 63 ≤ v <;>
    simp only [h1, h2, h3, h4, decide_True, decide_False, not_true_eq_false,
      not_false_eq_true, iff_false, iff_true, and_self, and_true, and_false, false_and,
      true_and, if_true, if_false, Bool.xor_self, Bool.xor_true, Bool.xor_false,
      Bool.and_self, Bool.and_true, Bool.and_false, Bool.true_and, Bool.false_and,
      Bool.not_true, Bool.not_false, Bool.toNat_true, Bool.toNat_false]

/-! ## Dispatch lemmas: which handler runs for an opcode -/

theorem process_instruction_adds (s : Sim) (h : field_opcode (fetch s) = 0x558) :
    process_instruction s = advance_pc (case_ADDS_reg s (fetch s)) := by
  have hh : field_opcode_high (fetch s) = 0xAB := by rw [opcode_high_of_opcode, h]
  simp only [process_instruction, h, hh]
  rfl

theorem process_instruction_subs (s : Sim) (h : field_opcode (fetch s) = 0x758) :
    process_instruction s = advance_pc (case_SUBS_reg s (fetch s)) := by
  have hh : field_opcode_high (fetch s) = 0xEB := by rw [opcode_high_of_opcode, h]
  simp only [process_instruction, h, hh]
  rfl

theorem process_instruction_adcs (s : Sim) (h : field_opcode (fetch s) = 0x5d0) :
    process_instruction s = advance_pc (case_ADCS s (fetch s)) := by
  have hh : field_opcode_high (fetch s) = 0xBA := by rw [opcode_high_of_opcode, h]
  simp only [process_instruction, h, hh]
  rfl

theorem process_instruction_cbz (s : Sim) (h : field_opcode (fetch s) = 0x5A0) :
    process_instruction s = case_CBZ s (fetch s) := by
  have hh : field_opcode_high (fetch s) = 0xB4 := by rw [opcode_high_of_opcode, h]
  simp only [process_instruction, h, hh]
  rfl

/-- The register file staged by `set_reg_value`. -/
theorem set_reg_value_REGS (s : Sim) (r v i : Nat) :
    (set_reg_value s r v).NEXT_STATE.REGS i
      = if r ≠ 31 ∧ i = r then v else s.NEXT_STATE.REGS i := by
  unfold set_reg_value
  by_cases hr : r = 31
  · simp [hr]
  · by_cases hi : i = r <;> simp [hr, hi]

/-- Neither flag routine of the add and subtract family ever sets N: its
`result` parameter is unsigned. -/
theorem update_flags_add_sub_FLAG_N (s : Sim) (a b result : Nat) :
    (update_flags_add s a b result).NEXT_STATE.FLAG_N = 0
      ∧ (update_flags_sub s a b result).NEXT_STATE.FLAG_N = 0 := by
  simp [update_flags_add, update_flags_sub]

/-! ## Flag-setting arithmetic -/

/-- C1 (the code departs from the claim): `ADDS X0, X1, X2` with
`X1 = 0x7FFFFFFFFFFFFFFF` and `X2 = 1` is dispatched to the ADDS handler and
produces `0x8000000000000000`, whose bit 63 is set, together with `V = 1` and
`C = 0`; yet the staged N flag is 0, because `update_flags_add` tests
`result < 0` on an unsigned parameter. -/
theorem adds_negative_result_leaves_N_clear :
    field_opcode (fetch st_adds_signed_overflow) = 0x558
      ∧ (process_instruction st_adds_signed_overflow).NEXT_STATE.REGS 0 = 0x8000000000000000
      ∧ toInt64 ((process_instruction st_adds_signed_overflow).NEXT_STATE.REGS 0) < 0
      ∧ (process_instruction st_adds_signed_overflow).NEXT_STATE.FLAG_N = 0
      ∧ (process_instruction st_adds_signed_overflow).NEXT_STATE.FLAG_V = 1
      ∧ (process_instruction st_adds_signed_overflow).NEXT_STATE.FLAG_C = 0 := by
  decide

/-- C2: ADDS (register) stages `(Xn + Xm) mod 2^64` into `Rd` through
`set_reg_value` (so it lands in `REGS[Rd]` unless `Rd` is the zero register)
and sets the carry flag to 1 exactly when the unsigned sum `Xn + Xm` reaches
`2^64`, and to 0 otherwise. -/
theorem adds_register_sum_and_carry (s : Sim)
    (hop : field_opcode (fetch s) = 0x558)
    (hn : get_reg_value s (field_Rn (fetch s)) < 2 ^ 64)
    (hm : get_reg_value s (field_Rm (fetch s)) < 2 ^ 64) :
    (process_instruction s).NEXT_STATE.REGS
        = (set_reg_value s (field_Rd (fetch s))
            ((get_reg_value s (field_Rn (fetch s))
              + get_reg_value s (field_Rm (fetch s))) % 2 ^ 64)).NEXT_STATE.REGS
      ∧ (field_Rd (fetch s) ≠ 31 →
          (process_instruction s).NEXT_STATE.REGS (field_Rd (fetch s))
            = (get_reg_value s (field_Rn (fetch s))
                + get_reg_value s (field_Rm (fetch s))) % 2 ^ 64)
      ∧ ((process_instruction s).NEXT_STATE.FLAG_C = 1 ↔
          2 ^ 64 ≤ get_reg_value s (field_Rn (fetch s))
            + get_reg_value s (field_Rm (fetch s)))
      ∧ ((process_instruction s).NEXT_STATE.FLAG_C = 0 ↔
          get_reg_value s (field_Rn (fetch s))
            + get_reg_value s (field_Rm (fetch s)) < 2 ^ 64) := by
  rw [process_instruction_adds s hop]
  unfold case_ADDS_reg
  dsimp only
  refine ⟨rfl, ?_, ?_, ?_⟩
  · intro hd
    show (set_reg_value s _ _).NEXT_STATE.REGS _ = _
    rw [set_reg_value_REGS]
    simp [hd]
  · show (if _ < _ then 1 else 0) = 1 ↔ _
    split <;> omega
  · show (if _ < _ then 1 else 0) = 0 ↔ _
    split <;> omega

/-- Witness of C2: the spec example `Xn = 0xFFFFFFFFFFFFFFFF`, `Xm = 1`, with
result 0 and Z = 1, N = 0, C = 1, V = 0. -/
theorem adds_register_sum_and_carry_witness :
    (process_instruction st_adds_unsigned_wrap).NEXT_STATE.REGS 0 = 0
      ∧ (process_instruction st_adds_unsigned_wrap).NEXT_STATE.FLAG_C = 1
      ∧ (process_instruction st_adds_unsigned_wrap).NEXT_STATE.FLAG_Z = 1
      ∧ (process_instruction st_adds_unsigned_wrap).NEXT_STATE.FLAG_N = 0
      ∧ (process_instruction st_adds_unsigned_wrap).NEXT_STATE.FLAG_V = 0 :=
  have h := adds_register_sum_and_carry st_adds_unsigned_wrap
    (by decide) (by decide) (by decide)
  ⟨h.2.1 (by decide), h.2.2.1.mpr (by decide), by decide, by decide, by decide⟩

/-- C3: ADDS (register) sets the overflow flag to 1 exactly when the exact sum
of the operands read as signed 64-bit integers leaves `[-2^63, 2^63 - 1]`,
equivalently when `Xn` and `Xm` have the same sign and the sign of the 64-bit
result differs from it; otherwise the flag is 0. -/
theorem adds_register_signed_overflow (s : Sim)
    (hop : field_opcode (fetch s) = 0x558)
    (hn : get_reg_value s (field_Rn (fetch s)) < 2 ^ 64)
    (hm : get_reg_value s (field_Rm (fetch s)) < 2 ^ 64) :
    ((process_instruction s).NEXT_STATE.FLAG_V = 1 ↔
        (toInt64 (get_reg_value s (field_Rn (fetch s)))
            + toInt64 (get_reg_value s (field_Rm (fetch s))) < -2 ^ 63
          ∨ 2 ^ 63 - 1 < toInt64 (get_reg_value s (field_Rn (fetch s)))
            + toInt64 (get_reg_value s (field_Rm (fetch s)))))
      ∧ ((process_instruction s).NEXT_STATE.FLAG_V = 1 ↔
        ((toInt64 (get_reg_value s (field_Rn (fetch s))) < 0
            ↔ toInt64 (get_reg_value s (field_Rm (fetch s))) < 0)
          ∧ ¬ (toInt64 ((get_reg_value s (field_Rn (fetch s))
                  + get_reg_value s (field_Rm (fetch s))) % 2 ^ 64) < 0
            ↔ toInt64 (get_reg_value s (field_Rn (fetch s))) < 0)))
      ∧ ((process_instruction s).NEXT_STATE.FLAG_V = 0
          ∨ (process_instruction s).NEXT_STATE.FLAG_V = 1) := by
  rw [process_instruction_adds s hop]
  unfold case_ADDS_reg
  dsimp only
  generalize get_reg_value s (field_Rn (fetch s)) = a at hn ⊢
  generalize get_reg_value s (field_Rm (fetch s)) = b at hm ⊢
  have hr : (a + b) % 2 ^ 64 < 2 ^ 64 := Nat.mod_lt _ (by norm_num)
  show ((((a ^^^ ((a + b) % 2 ^ 64)) &&& (b ^^^ ((a + b) % 2 ^ 64))) >>> 63) &&& 1 = 1 ↔ _)
    ∧ ((((a ^^^ ((a + b) % 2 ^ 64)) &&& (b ^^^ ((a + b) % 2 ^ 64))) >>> 63) &&& 1 = 1 ↔ _)
    ∧ ((((a ^^^ ((a + b) % 2 ^ 64)) &&& (b ^^^ ((a + b) % 2 ^ 64))) >>> 63) &&& 1 = 0
      ∨ (((a ^^^ ((a + b) % 2 ^ 64)) &&& (b ^^^ ((a + b) % 2 ^ 64))) >>> 63) &&& 1 = 1)
  rw [overflow_bit a _ b _ hn hr hm hr]
  unfold toInt64
  split_ifs <;> refine ⟨?_, ?_, ?_⟩ <;>
    first | omega | (rw [false_iff]; omega)

/-- Witness of C3: `0x7FFFFFFFFFFFFFFF + 1` overflows the signed range and
sets V. -/
theorem adds_register_signed_overflow_witness :
    toInt64 0x7FFFFFFFFFFFFFFF + toInt64 1 = 2 ^ 63
      ∧ (process_instruction st_adds_signed_overflow).NEXT_STATE.FLAG_V = 1 :=
  have h := adds_register_signed_overflow st_adds_signed_overflow
    (by decide) (by decide) (by decide)
  ⟨by decide, h.1.mpr (Or.inr (by decide))⟩

/-- C4: SUBS (register) with `Rd = 31`, the CMP form, leaves every register of
`NEXT_STATE` unchanged, sets Z to 1 exactly when `Xn = Xm` (else 0) and sets C
to 1 exactly when `Xn ≥ Xm` as unsigned integers (else 0). -/
theorem subs_register_as_cmp (s : Sim)
    (hop : field_opcode (fetch s) = 0x758)
    (hd : field_Rd (fetch s) = 31)
    (hn : get_reg_value s (field_Rn (fetch s)) < 2 ^ 64)
    (hm : get_reg_value s (field_Rm (fetch s)) < 2 ^ 64) :
    (process_instruction s).NEXT_STATE.REGS = s.NEXT_STATE.REGS
      ∧ ((process_instruction s).NEXT_STATE.FLAG_Z = 1 ↔
          get_reg_value s (field_Rn (fetch s)) = get_reg_value s (field_Rm (fetch s)))
      ∧ ((process_instruction s).NEXT_STATE.FLAG_Z = 0 ↔
          get_reg_value s (field_Rn (fetch s)) ≠ get_reg_value s (field_Rm (fetch s)))
      ∧ ((process_instruction s).NEXT_STATE.FLAG_C = 1 ↔
          get_reg_value s (field_Rn (fetch s)) ≥ get_reg_value s (field_Rm (fetch s)))
      ∧ ((process_instruction s).NEXT_STATE.FLAG_C = 0 ↔
          get_reg_value s (field_Rn (fetch s)) < get_reg_value s (field_Rm (fetch s))) := by
  rw [process_instruction_subs s hop]
  unfold case_SUBS_reg
  dsimp only
  rw [hd]
  generalize get_reg_value s (field_Rn (fetch s)) = a at hn ⊢
  generalize get_reg_value s (field_Rm (fetch s)) = b at hm ⊢
  refine ⟨rfl, ?_, ?_, ?_, ?_⟩
  · show (if wrap64 ((a : Int) - (b : Int)) = 0 then 1 else 0) = 1 ↔ _
    unfold wrap64
    split <;> omega
  · show (if wrap64 ((a : Int) - (b : Int)) = 0 then 1 else 0) = 0 ↔ _
    unfold wrap64
    split <;> omega
  · show (if a ≥ b then 1 else 0) = 1 ↔ _
    split <;> omega
  · show (if a ≥ b then 1 else 0) = 0 ↔ _
    split <;> omega

/-- Witness of C4: the spec example `CMP` of 5 with 5, giving Z = 1, C = 1,
N = 0, V = 0 and no register change. -/
theorem subs_register_as_cmp_witness :
    (process_instruction st_cmp_equal).NEXT_STATE.REGS = st_cmp_equal.NEXT_STATE.REGS
      ∧ (process_instruction st_cmp_equal).NEXT_STATE.FLAG_Z = 1
      ∧ (process_instruction st_cmp_equal).NEXT_STATE.FLAG_C = 1
      ∧ (process_instruction st_cmp_equal).NEXT_STATE.FLAG_N = 0
      ∧ (process_instruction st_cmp_equal).NEXT_STATE.FLAG_V = 0 :=
  have h := subs_register_as_cmp st_cmp_equal (by decide) (by decide) (by decide) (by decide)
  ⟨h.1, h.2.1.mpr (by decide), h.2.2.2.1.mpr (by decide), by decide, by decide⟩

/-- C5 (the code departs from the claim): `ADCS X0, X1, X2` with `X1 = 0`,
`X2 = 0xFFFFFFFFFFFFFFFF` and carry-in 1 is dispatched to the ADCS handler and
stages `(0 + X2 + 1) mod 2^64 = 0` into `X0`; the unsigned three-operand sum is
`2^64`, yet the staged carry flag is 0, because the handler passes the wrapped
`Xm + carry = 0` as second operand and `update_flags_add` compares
`result < a`. -/
theorem adcs_carry_in_wrap_loses_carry :
    field_opcode (fetch st_adcs_carry_in) = 0x5d0
      ∧ get_reg_value st_adcs_carry_in (field_Rn (fetch st_adcs_carry_in)) = 0
      ∧ get_reg_value st_adcs_carry_in (field_Rm (fetch st_adcs_carry_in))
          = 0xFFFFFFFFFFFFFFFF
      ∧ st_adcs_carry_in.CURRENT_STATE.FLAG_C = 1
      ∧ 2 ^ 64 ≤ 0 + 0xFFFFFFFFFFFFFFFF + 1
      ∧ (process_instruction st_adcs_carry_in).NEXT_STATE.REGS 0 = 0
      ∧ (process_instruction st_adcs_carry_in).NEXT_STATE.FLAG_C = 0 := by
  decide

/-- ADCS when the carry-in does not wrap the second operand: when `Xm + carry` itself does not wrap, the
staged carry flag is 1 exactly when the three-operand sum reaches `2^64`, and
the staged result is the sum modulo `2^64`. -/
theorem adcs_carry_when_second_operand_fits (s : Sim)
    (hop : field_opcode (fetch s) = 0x5d0)
    (hn : get_reg_value s (field_Rn (fetch s)) < 2 ^ 64)
    (hfit : get_reg_value s (field_Rm (fetch s)) + s.CURRENT_STATE.FLAG_C < 2 ^ 64) :
    (field_Rd (fetch s) ≠ 31 →
        (process_instruction s).NEXT_STATE.REGS (field_Rd (fetch s))
          = (get_reg_value s (field_Rn (fetch s)) + get_reg_value s (field_Rm (fetch s))
              + s.CURRENT_STATE.FLAG_C) % 2 ^ 64)
      ∧ ((process_instruction s).NEXT_STATE.FLAG_C = 1 ↔
          2 ^ 64 ≤ get_reg_value s (field_Rn (fetch s))
            + get_reg_value s (field_Rm (fetch s)) + s.CURRENT_STATE.FLAG_C) := by
  rw [process_instruction_adcs s hop]
  unfold case_ADCS
  dsimp only
  refine ⟨?_, ?_⟩
  · intro hd
    show (set_reg_value s _ _).NEXT_STATE.REGS _ = _
    rw [set_reg_value_REGS]
    simp [hd]
  · show (if _ < _ then 1 else 0) = 1 ↔ _
    split <;> omega

/-! ## Register accessor and the zero register -/

/-- C6: a write to register 31 changes nothing and register 31 reads as 0; for
an index `i` in 0..30, after `set_reg_value i v` and the commit, `get_reg_value i`
returns `v`, and every other register keeps its previous `NEXT_STATE` value. -/
theorem register_accessor_contract (s : Sim) (v i : Nat) (hi : i ≤ 30) :
    set_reg_value s 31 v = s
      ∧ get_reg_value s 31 = 0
      ∧ get_reg_value (commit (set_reg_value s i v)) i = v
      ∧ ∀ j, j ≠ i → (set_reg_value s i v).NEXT_STATE.REGS j = s.NEXT_STATE.REGS j := by
  have h31 : i ≠ 31 := by omega
  refine ⟨by simp [set_reg_value], by simp [get_reg_value], ?_, ?_⟩
  · simp [get_reg_value, commit, set_reg_value, h31]
  · intro j hj
    simp [set_reg_value, h31, hj]

/-- Witness of C6: writing 7 to register 3 of a fresh state. -/
theorem register_accessor_contract_witness :
    3 ≤ 30
      ∧ (set_reg_value (boot 0) 31 7 = boot 0
        ∧ get_reg_value (boot 0) 31 = 0
        ∧ get_reg_value (commit (set_reg_value (boot 0) 3 7)) 3 = 7
        ∧ ∀ j, j ≠ 3 →
            (set_reg_value (boot 0) 3 7).NEXT_STATE.REGS j = (boot 0).NEXT_STATE.REGS j) :=
  ⟨by decide, register_accessor_contract (boot 0) 7 3 (by decide)⟩

/-! ### Frame facts of the state-update helpers -/

@[simp] theorem advance_pc_REGS (s : Sim) :
    (advance_pc s).NEXT_STATE.REGS = s.NEXT_STATE.REGS := rfl

@[simp] theorem set_next_pc_REGS (s : Sim) (v : Nat) :
    (set_next_pc s v).NEXT_STATE.REGS = s.NEXT_STATE.REGS := rfl

@[simp] theorem update_flags_REGS (s : Sim) (r : Nat) :
    (update_flags s r).NEXT_STATE.REGS = s.NEXT_STATE.REGS := rfl

@[simp] theorem update_flags_add_REGS (s : Sim) (a b r : Nat) :
    (update_flags_add s a b r).NEXT_STATE.REGS = s.NEXT_STATE.REGS := rfl

@[simp] theorem update_flags_sub_REGS (s : Sim) (a b r : Nat) :
    (update_flags_sub s a b r).NEXT_STATE.REGS = s.NEXT_STATE.REGS := rfl

@[simp] theorem set_reg_value_REGS_31 (s : Sim) (r v : Nat) :
    (set_reg_value s r v).NEXT_STATE.REGS 31 = s.NEXT_STATE.REGS 31 := by
  rw [set_reg_value_REGS]
  by_cases hr : r = 31
  · simp [hr]
  · have : ¬ (31 = r) := fun h => hr h.symm
    simp [this]

/-- The `B.cond` handler only assigns `NEXT_STATE.PC`. -/
theorem b_cond_eq_set_next_pc (s : Sim) (w : Nat) :
    ∃ v, b_cond s w = set_next_pc s v := by
  unfold b_cond
  simp only
  split
  · exact ⟨_, rfl⟩
  · exact ⟨_, rfl⟩
  · exact ⟨_, rfl⟩

/-- Case analysis over the handlers: a property that holds of the result of
`B.cond`, of every `case` that ends in `return`, and of `advance_pc` applied to
the result of every `case` that ends in `break` (the `default` case leaves the
state as it is), holds of `process_instruction`. -/
theorem process_instruction_cases (P : Sim → Prop) (s : Sim)
    (h_bcond : P (b_cond s (fetch s)))
    (h_break : ∀ t : Sim, t ∈
      [case_HLT s, case_ADDS_reg s (fetch s), case_SUBS_reg s (fetch s),
        case_ADDS_imm s (fetch s), case_SUBS_imm s (fetch s), case_ADCS s (fetch s),
        case_ANDS s (fetch s), case_EOR s (fetch s), case_ORR s (fetch s),
        case_MOVZ s (fetch s), case_LSL s (fetch s), case_LSR s (fetch s),
        case_STUR s (fetch s), case_STURB s (fetch s), case_STURH s (fetch s),
        case_LDUR s (fetch s), case_LDURB s (fetch s), case_LDURH s (fetch s),
        case_ADD_reg s (fetch s), case_ADD_imm s (fetch s), case_MUL s (fetch s), s] →
      P (advance_pc t))
    (h_return : ∀ t : Sim, t ∈
      [case_B s (fetch s), case_BR s (fetch s), case_CBZ s (fetch s),
        case_CBNZ s (fetch s)] → P t) :
    P (process_instruction s) := by
  unfold process_instruction
  dsimp only
  generalize field_opcode (fetch s) = op
  generalize field_opcode_high (fetch s) = oph
  by_cases h : oph = 0x54
  · rw [if_pos h]
    exact h_bcond
  rw [if_neg h]
  clear h
  by_cases h : op = 0x6A2
  · rw [if_pos h]
    exact h_break _ (by simp)
  rw [if_neg h]
  clear h
  by_cases h : op = 0x558
  · rw [if_pos h]
    exact h_break _ (by simp)
  rw [if_neg h]
  clear h
  by_cases h : op = 0x758
  · rw [if_pos h]
    exact h_break _ (by simp)
  rw [if_neg h]
  clear h
  by_cases h : op = 0x588
  · rw [if_pos h]
    exact h_break _ (by simp)
  rw [if_neg h]
  clear h
  by_cases h : op = 0x788
  · rw [if_pos h]
    exact h_break _ (by simp)
  rw [if_neg h]
  clear h
  by_cases h : op = 0x5d0
  · rw [if_pos h]
    exact h_break _ (by simp)
  rw [if_neg h]
  clear h
  by_cases h : op = 0x750
  · rw [if_pos h]
    exact h_break _ (by simp)
  rw [if_neg h]
  clear h
  by_cases h : op = 0x650
  · rw [if_pos h]
    exact h_break _ (by simp)
  rw [if_neg h]
  clear h
  by_cases h : op = 0x550
  · rw [if_pos h]
    exact h_break _ (by simp)
  rw [if_neg h]
  clear h
  by_cases h : op = 0x0A0
  · rw [if_pos h]
    exact h_return _ (by simp)
  rw [if_neg h]
  clear h
  by_cases h : op = 0x6B0
  · rw [if_pos h]
    exact h_return _ (by simp)
  rw [if_neg h]
  clear h
  by_cases h : op = 0x694
  · rw [if_pos h]
    exact h_break _ (by simp)
  rw [if_neg h]
  clear h
  by_cases h : op = 0x69A
  · rw [if_pos h]
    exact h_break _ (by simp)
  rw [if_neg h]
  clear h
  by_cases h : op = 0x69B
  · rw [if_pos h]
    exact h_break _ (by simp)
  rw [if_neg h]
  clear h
  by_cases h : op = 0x7c0
  · rw [if_pos h]
    exact h_break _ (by simp)
  rw [if_neg h]
  clear h
  by_cases h : op = 0x1c0
  · rw [if_pos h]
    exact h_break _ (by simp)
  rw [if_neg h]
  clear h
  by_cases h : op = 0x3E1
  · rw [if_pos h]
    exact h_break _ (by simp)
  rw [if_neg h]
  clear h
  by_cases h : op = 0x7c2
  · rw [if_pos h]
    exact h_break _ (by simp)
  rw [if_neg h]
  clear h
  by_cases h : op = 0x1c2
  · rw [if_pos h]
    exact h_break _ (by simp)
  rw [if_neg h]
  clear h
  by_cases h : op = 0x3c2
  · rw [if_pos h]
    exact h_break _ (by simp)
  rw [if_neg h]
  clear h
  by_cases h : op = 0x458
  · rw [if_pos h]
    exact h_break _ (by simp)
  rw [if_neg h]
  clear h
  by_cases h : op = 0x488
  · rw [if_pos h]
    exact h_break _ (by simp)
  rw [if_neg h]
  clear h
  by_cases h : op = 0x4D8
  · rw [if_pos h]
    exact h_break _ (by simp)
  rw [if_neg h]
  clear h
  by_cases h : op = 0x5A0
  · rw [if_pos h]
    exact h_return _ (by simp)
  rw [if_neg h]
  clear h
  by_cases h : op = 0x5A8
  · rw [if_pos h]
    exact h_return _ (by simp)
  rw [if_neg h]
  clear h
  exact h_break _ (by simp)

/-- The `B.cond` handler leaves the staged registers as they are. -/
theorem b_cond_REGS (s : Sim) (w : Nat) :
    (b_cond s w).NEXT_STATE.REGS = s.NEXT_STATE.REGS := by
  obtain ⟨v, hv⟩ := b_cond_eq_set_next_pc s w
  rw [hv]
  rfl

theorem case_CBZ_REGS (s : Sim) (w : Nat) :
    (case_CBZ s w).NEXT_STATE.REGS = s.NEXT_STATE.REGS := by
  unfold case_CBZ
  dsimp only
  split <;> rfl

theorem case_CBNZ_REGS (s : Sim) (w : Nat) :
    (case_CBNZ s w).NEXT_STATE.REGS = s.NEXT_STATE.REGS := by
  unfold case_CBNZ
  dsimp only
  split <;> rfl

/-- No handler changes register 31 of `NEXT_STATE`. -/
theorem process_instruction_REGS_31 (s : Sim) :
    (process_instruction s).NEXT_STATE.REGS 31 = s.NEXT_STATE.REGS 31 := by
  apply process_instruction_cases (fun t => t.NEXT_STATE.REGS 31 = s.NEXT_STATE.REGS 31)
  · simp [b_cond_REGS]
  · intro t ht
    simp only [List.mem_cons, List.mem_singleton, List.not_mem_nil, or_false] at ht
    rcases ht with h | h | h | h | h | h | h | h | h | h | h | h | h | h | h | h | h | h
      | h | h | h | h <;>
    subst h <;>
    simp [case_HLT, case_ADDS_reg, case_SUBS_reg, case_ADDS_imm, case_SUBS_imm, case_ADCS,
      case_ANDS, case_EOR, case_ORR, case_MOVZ, case_LSL, case_LSR,
      case_STUR, case_STURB, case_STURH, case_LDUR, case_LDURB, case_LDURH, case_ADD_reg,
      case_ADD_imm, case_MUL]
  · intro t ht
    simp only [List.mem_cons, List.mem_singleton, List.not_mem_nil, or_false] at ht
    rcases ht with h | h | h | h <;> subst h <;>
    simp [case_B, case_BR, case_CBZ_REGS, case_CBNZ_REGS]

/-- Register 31 stays 0 in both buffers along any run. -/
theorem run_REGS_31 (n : Nat) (s : Sim)
    (hc : s.CURRENT_STATE.REGS 31 = 0) (hx : s.NEXT_STATE.REGS 31 = 0) :
    (run n s).CURRENT_STATE.REGS 31 = 0 ∧ (run n s).NEXT_STATE.REGS 31 = 0 := by
  induction n generalizing s with
  | zero => exact ⟨hc, hx⟩
  | succ k ih =>
    have h1 : (cycle s).NEXT_STATE.REGS 31 = 0 := by
      show (process_instruction s).NEXT_STATE.REGS 31 = 0
      rw [process_instruction_REGS_31, hx]
    exact ih (cycle s) h1 h1

/-- C7: `process_instruction` leaves `NEXT_STATE.REGS[31]` equal to its value
before the call, for every state and memory content (so for every fetched
word and destination field); hence if register 31 holds 0 in both buffers it
holds 0 in both after any number of dispatch-and-commit cycles. -/
theorem zero_register_immutable (s : Sim) :
    (process_instruction s).NEXT_STATE.REGS 31 = s.NEXT_STATE.REGS 31
      ∧ (s.CURRENT_STATE.REGS 31 = 0 → s.NEXT_STATE.REGS 31 = 0 →
          ∀ n, (run n s).CURRENT_STATE.REGS 31 = 0 ∧ (run n s).NEXT_STATE.REGS 31 = 0) :=
  ⟨process_instruction_REGS_31 s, fun hc hx n => run_REGS_31 n s hc hx⟩

/-- Witness of C7: an ADDS whose destination field is 31, followed by two more
cycles. -/
theorem zero_register_immutable_witness :
    field_Rd (fetch st_adds_to_xzr) = 31
      ∧ (process_instruction st_adds_to_xzr).NEXT_STATE.REGS 31 = 0
      ∧ (run 3 st_adds_to_xzr).CURRENT_STATE.REGS 31 = 0
      ∧ (run 3 st_adds_to_xzr).NEXT_STATE.REGS 31 = 0 :=
  have h := zero_register_immutable st_adds_to_xzr
  ⟨by decide, h.1.trans (by decide), h.2 (by decide) (by decide) 3⟩

/-! ## Branch offsets and conditional branches -/

theorem and_bit18 (v : Nat) (hv : v < 2 ^ 19) : v &&& (1 <<< 18) ≠ 0 ↔ 2 ^ 18 ≤ v := by
  have h1 : (1 : Nat) <<< 18 = 2 ^ 18 := by norm_num [Nat.shiftLeft_eq]
  rw [h1, Nat.and_two_pow, Nat.testBit_to_div_mod]
  by_cases h : v / 2 ^ 18 % 2 = 1
  · simp only [h, decide_True, Bool.toNat_true]
    omega
  · simp only [h, decide_False, Bool.toNat_false]
    omega

theorem or_sign19 (v : Nat) (hv : v < 2 ^ 19) : v ||| 0xFFF80000 = 0xFFF80000 + v := by
  have h := Nat.mul_add_lt_is_or hv 8191
  rw [Nat.or_comm]
  norm_num at h ⊢
  omega

/-- The value of `extract_imm19`: four times the two's-complement reading of
the 19-bit field [23:5]. -/
theorem extract_imm19_eq (w : Nat) :
    extract_imm19 w
      = 4 * (if w / 32 % 2 ^ 19 < 2 ^ 18 then ((w / 32 % 2 ^ 19 : Nat) : Int)
              else ((w / 32 % 2 ^ 19 : Nat) : Int) - 2 ^ 19) := by
  unfold extract_imm19
  dsimp only
  rw [and_0x7FFFF, Nat.shiftRight_eq_div_pow]
  have hv : w / 2 ^ 5 % 524288 < 2 ^ 19 := Nat.mod_lt _ (by norm_num)
  have hv2 : w / 2 ^ 5 % 524288 = w / 32 % 2 ^ 19 := by norm_num
  rw [hv2] at hv ⊢
  generalize w / 32 % 2 ^ 19 = v at hv ⊢
  have hb := and_bit18 v hv
  unfold toInt32
  by_cases h : 2 ^ 18 ≤ v
  · rw [if_pos (hb.mpr h), or_sign19 v hv, Nat.shiftLeft_eq]
    split_ifs <;> omega
  · rw [if_neg (fun hc => h (hb.mp hc)), Nat.shiftLeft_eq]
    split_ifs <;> omega

/-- C8: for a displacement `d` that is a multiple of 4 with
`-2^20 ≤ d ≤ 2^20 - 4`, and any word whose bits [23:5] hold `(d / 4) mod 2^19`,
`extract_imm19` returns `d`. -/
theorem extract_imm19_roundtrip (d : Int) (w : Nat)
    (h4 : 4 ∣ d) (hlo : -2 ^ 20 ≤ d) (hhi : d ≤ 2 ^ 20 - 4)
    (hw : (w >>> 5) &&& 0x7FFFF = ((d / 4) % 2 ^ 19).toNat) :
    extract_imm19 w = d := by
  rw [extract_imm19_eq]
  rw [and_0x7FFFF, Nat.shiftRight_eq_div_pow] at hw
  have hv2 : w / 2 ^ 5 % 524288 = w / 32 % 2 ^ 19 := by norm_num
  rw [hv2] at hw
  rw [hw]
  split_ifs <;> omega

/-- Witness of C8: the most negative displacement `-2^20`, in the word
`0x54800000` (`B.EQ` with `imm19 = 0x40000`). -/
theorem extract_imm19_roundtrip_witness :
    (0x54800000 >>> 5) &&& 0x7FFFF = (((-1048576 : Int) / 4) % 2 ^ 19).toNat
      ∧ extract_imm19 0x54800000 = -1048576 :=
  ⟨by decide,
    extract_imm19_roundtrip (-1048576) 0x54800000 (by decide) (by decide) (by decide)
      (by decide)⟩

theorem wrap64_cast (x : Int) : ((wrap64 x : Nat) : Int) = x % 2 ^ 64 := by
  unfold wrap64
  exact Int.toNat_of_nonneg (Int.emod_nonneg _ (by norm_num))

/-- The `B.cond` handler as a single assignment to `NEXT_STATE.PC`. -/
theorem b_cond_eq (s : Sim) (w : Nat) :
    b_cond s w = set_next_pc s
      (if (w &&& 0xF = 0x0 ∧ s.CURRENT_STATE.FLAG_Z = 1)
          ∨ (w &&& 0xF = 0x1 ∧ s.CURRENT_STATE.FLAG_Z = 0)
          ∨ (w &&& 0xF = 0xC ∧ s.CURRENT_STATE.FLAG_Z = 0 ∧ s.CURRENT_STATE.FLAG_N = 0)
          ∨ (w &&& 0xF = 0xB ∧ s.CURRENT_STATE.FLAG_N = 1)
          ∨ (w &&& 0xF = 0xA ∧ s.CURRENT_STATE.FLAG_N = 0)
          ∨ (w &&& 0xF = 0xD ∧ (s.CURRENT_STATE.FLAG_Z = 1 ∨ s.CURRENT_STATE.FLAG_N = 1))
        then wrap64 ((s.CURRENT_STATE.PC : Int) + extract_imm19 w)
        else (s.CURRENT_STATE.PC + 4) % 2 ^ 64) := by
  unfold b_cond
  dsimp only
  generalize w &&& 0xF = c
  generalize s.CURRENT_STATE.FLAG_Z = z
  generalize s.CURRENT_STATE.FLAG_N = n
  generalize wrap64 ((s.CURRENT_STATE.PC : Int) + extract_imm19 w) = tgt
  generalize (s.CURRENT_STATE.PC + 4) % 2 ^ 64 = nxt
  by_cases h0 : c = 0
  · subst h0
    by_cases hz : z = 1 <;> simp [hz]
  by_cases h1 : c = 1
  · subst h1
    by_cases hz : z = 0 <;> simp [hz]
  by_cases h2 : c = 12
  · subst h2
    by_cases hz : z = 0 <;> by_cases hn : n = 0 <;> simp [hz, hn]
  by_cases h3 : c = 11
  · subst h3
    by_cases hn : n = 1 <;> simp [hn]
  by_cases h4 : c = 10
  · subst h4
    by_cases hn : n = 0 <;> simp [hn]
  by_cases h5 : c = 13
  · subst h5
    by_cases hz : z = 1 <;> by_cases hn : n = 1 <;> simp [hz, hn]
  simp [h0, h1, h2, h3, h4, h5]

theorem process_instruction_b_cond (s : Sim) (h : field_opcode_high (fetch s) = 0x54) :
    process_instruction s = b_cond s (fetch s) := by
  simp only [process_instruction, h]
  rfl

/-- C9: for a word with bits [31:24] = `0x54`, `process_instruction` changes no
register and no flag; it sets `NEXT_STATE.PC` to `PC + extract_imm19(word)`
modulo `2^64` when the condition of bits [3:0] holds against the current Z and
N (EQ `0x0`: Z = 1; NE `0x1`: Z = 0; GT `0xC`: Z = 0 and N = 0; LT `0xB`: N = 1;
GE `0xA`: N = 0; LE `0xD`: Z = 1 or N = 1) and to `PC + 4` modulo `2^64`
otherwise, in particular for every other condition code. -/
theorem b_cond_contract (s : Sim) (hop : field_opcode_high (fetch s) = 0x54) :
    (process_instruction s).NEXT_STATE.REGS = s.NEXT_STATE.REGS
      ∧ (process_instruction s).NEXT_STATE.FLAG_Z = s.NEXT_STATE.FLAG_Z
      ∧ (process_instruction s).NEXT_STATE.FLAG_N = s.NEXT_STATE.FLAG_N
      ∧ (process_instruction s).NEXT_STATE.FLAG_C = s.NEXT_STATE.FLAG_C
      ∧ (process_instruction s).NEXT_STATE.FLAG_V = s.NEXT_STATE.FLAG_V
      ∧ ((fetch s &&& 0xF = 0x0 ∧ s.CURRENT_STATE.FLAG_Z = 1)
          ∨ (fetch s &&& 0xF = 0x1 ∧ s.CURRENT_STATE.FLAG_Z = 0)
          ∨ (fetch s &&& 0xF = 0xC ∧ s.CURRENT_STATE.FLAG_Z = 0 ∧ s.CURRENT_STATE.FLAG_N = 0)
          ∨ (fetch s &&& 0xF = 0xB ∧ s.CURRENT_STATE.FLAG_N = 1)
          ∨ (fetch s &&& 0xF = 0xA ∧ s.CURRENT_STATE.FLAG_N = 0)
          ∨ (fetch s &&& 0xF = 0xD
              ∧ (s.CURRENT_STATE.FLAG_Z = 1 ∨ s.CURRENT_STATE.FLAG_N = 1)) →
          (((process_instruction s).NEXT_STATE.PC : Nat) : Int)
            = ((s.CURRENT_STATE.PC : Int) + extract_imm19 (fetch s)) % 2 ^ 64)
      ∧ (¬ ((fetch s &&& 0xF = 0x0 ∧ s.CURRENT_STATE.FLAG_Z = 1)
          ∨ (fetch s &&& 0xF = 0x1 ∧ s.CURRENT_STATE.FLAG_Z = 0)
          ∨ (fetch s &&& 0xF = 0xC ∧ s.CURRENT_STATE.FLAG_Z = 0 ∧ s.CURRENT_STATE.FLAG_N = 0)
          ∨ (fetch s &&& 0xF = 0xB ∧ s.CURRENT_STATE.FLAG_N = 1)
          ∨ (fetch s &&& 0xF = 0xA ∧ s.CURRENT_STATE.FLAG_N = 0)
          ∨ (fetch s &&& 0xF = 0xD
              ∧ (s.CURRENT_STATE.FLAG_Z = 1 ∨ s.CURRENT_STATE.FLAG_N = 1))) →
          (process_instruction s).NEXT_STATE.PC = (s.CURRENT_STATE.PC + 4) % 2 ^ 64)
      ∧ (fetch s &&& 0xF ≠ 0x0 ∧ fetch s &&& 0xF ≠ 0x1 ∧ fetch s &&& 0xF ≠ 0xC
          ∧ fetch s &&& 0xF ≠ 0xB ∧ fetch s &&& 0xF ≠ 0xA ∧ fetch s &&& 0xF ≠ 0xD →
          (process_instruction s).NEXT_STATE.PC = (s.CURRENT_STATE.PC + 4) % 2 ^ 64) := by
  rw [process_instruction_b_cond s hop, b_cond_eq]
  refine ⟨rfl, rfl, rfl, rfl, rfl, ?_, ?_, ?_⟩
  · intro h
    show ((ite _ _ _ : Nat) : Int) = _
    rw [if_pos h, wrap64_cast]
  · intro h
    show (ite _ _ _ : Nat) = _
    rw [if_neg h]
  · intro h
    show (ite _ _ _ : Nat) = _
    rw [if_neg]
    rintro (h' | h' | h' | h' | h' | h')
    · exact h.1 h'.1
    · exact h.2.1 h'.1
    · exact h.2.2.1 h'.1
    · exact h.2.2.2.1 h'.1
    · exact h.2.2.2.2.1 h'.1
    · exact h.2.2.2.2.2 h'.1

/-- Witness of C9: `B.EQ` back by 8 bytes with Z = 1 is taken, from
`PC = 0x400000` to `0x3FFFF8`. -/
theorem b_cond_contract_witness :
    field_opcode_high (fetch st_beq_back) = 0x54
      ∧ extract_imm19 (fetch st_beq_back) = -8
      ∧ (((process_instruction st_beq_back).NEXT_STATE.PC : Nat) : Int)
          = ((st_beq_back.CURRENT_STATE.PC : Int) + extract_imm19 (fetch st_beq_back)) % 2 ^ 64
      ∧ (process_instruction st_beq_back).NEXT_STATE.PC = 0x3FFFF8 :=
  ⟨by decide, by decide,
    (b_cond_contract st_beq_back (by decide)).2.2.2.2.2.1 (Or.inl ⟨by decide, by decide⟩),
    by decide⟩

/-- CBZ when the switch reaches its case: when the 11-bit field is `0x5A0` (bits
[23:21] of the word are zero, so `0 ≤ imm19 < 2^16`), the branch is taken to
`PC + extract_imm19(word)` when the tested register holds 0 and falls to
`PC + 4` otherwise. -/
theorem cbz_when_dispatched (s : Sim) (hop : field_opcode (fetch s) = 0x5A0) :
    (s.CURRENT_STATE.REGS (field_Rd (fetch s)) = 0 →
        (process_instruction s).NEXT_STATE.PC
          = wrap64 ((s.CURRENT_STATE.PC : Int) + extract_imm19 (fetch s)))
      ∧ (s.CURRENT_STATE.REGS (field_Rd (fetch s)) ≠ 0 →
        (process_instruction s).NEXT_STATE.PC = (s.CURRENT_STATE.PC + 4) % 2 ^ 64) := by
  rw [process_instruction_cbz s hop]
  unfold case_CBZ
  dsimp only
  constructor
  · intro h
    rw [if_pos h]
    rfl
  · intro h
    rw [if_neg h]
    rfl

/-- C10 (the code departs from the claim): `CBZ X0, -4` with `X0 = 0`.  The
word has bits [31:24] = `0xB4` and decodes to the displacement `-4`, so the
claim asks for `NEXT_STATE.PC = PC - 4 = 0x3FFFFC`.  The switch, however, tests
the 11-bit field [31:21], which here is `0x5A7` (it includes the top three bits
of `imm19`) and matches no `case`; the default advances to `PC + 4`. -/
theorem cbz_negative_offset_falls_to_default :
    field_opcode_high (fetch st_cbz_back) = 0xB4
      ∧ extract_imm19 (fetch st_cbz_back) = -4
      ∧ st_cbz_back.CURRENT_STATE.REGS (field_Rd (fetch st_cbz_back)) = 0
      ∧ st_cbz_back.CURRENT_STATE.PC = 0x400000
      ∧ field_opcode (fetch st_cbz_back) = 0x5A7
      ∧ (process_instruction st_cbz_back).NEXT_STATE.PC = 0x400004
      ∧ (process_instruction st_cbz_back).NEXT_STATE.PC ≠ 0x3FFFFC := by
  decide

/-! ## Frame properties of the dispatcher -/

/-- Case analysis over the handlers that keeps the decoded opcode: a property
holds of `process_instruction` when it holds of the `B.cond` handler if bits
[31:24] are `0x54`, of the result of each `case` (with `advance_pc` after a
`break`) if the 11-bit field is its label, and of `advance_pc` alone if the
11-bit field is none of the labels. -/
theorem process_instruction_cases_op (P : Sim → Prop) (s : Sim)
    (h_bcond : field_opcode_high (fetch s) = 0x54 → P (b_cond s (fetch s)))
    (h_case : ∀ (op : Nat) (t : Sim), (op, t) ∈
      [(0x6A2, advance_pc (case_HLT s)),
        (0x558, advance_pc (case_ADDS_reg s (fetch s))),
        (0x758, advance_pc (case_SUBS_reg s (fetch s))),
        (0x588, advance_pc (case_ADDS_imm s (fetch s))),
        (0x788, advance_pc (case_SUBS_imm s (fetch s))),
        (0x5d0, advance_pc (case_ADCS s (fetch s))),
        (0x750, advance_pc (case_ANDS s (fetch s))),
        (0x650, advance_pc (case_EOR s (fetch s))),
        (0x550, advance_pc (case_ORR s (fetch s))),
        (0x0A0, case_B s (fetch s)),
        (0x6B0, case_BR s (fetch s)),
        (0x694, advance_pc (case_MOVZ s (fetch s))),
        (0x69A, advance_pc (case_LSL s (fetch s))),
        (0x69B, advance_pc (case_LSR s (fetch s))),
        (0x7c0, advance_pc (case_STUR s (fetch s))),
        (0x1c0, advance_pc (case_STURB s (fetch s))),
        (0x3E1, advance_pc (case_STURH s (fetch s))),
        (0x7c2, advance_pc (case_LDUR s (fetch s))),
        (0x1c2, advance_pc (case_LDURB s (fetch s))),
        (0x3c2, advance_pc (case_LDURH s (fetch s))),
        (0x458, advance_pc (case_ADD_reg s (fetch s))),
        (0x488, advance_pc (case_ADD_imm s (fetch s))),
        (0x4D8, advance_pc (case_MUL s (fetch s))),
        (0x5A0, case_CBZ s (fetch s)),
        (0x5A8, case_CBNZ s (fetch s))] →
      field_opcode_high (fetch s) ≠ 0x54 → field_opcode (fetch s) = op → P t)
    (h_default : field_opcode_high (fetch s) ≠ 0x54 →
      field_opcode (fetch s) ∉
        [0x6A2, 0x558, 0x758, 0x588, 0x788, 0x5d0, 0x750, 0x650, 0x550, 0x0A0, 0x6B0,
          0x694, 0x69A, 0x69B, 0x7c0, 0x1c0, 0x3E1, 0x7c2, 0x1c2, 0x3c2, 0x458, 0x488,
          0x4D8, 0x5A0, 0x5A8] →
      P (advance_pc s)) :
    P (process_instruction s) := by
  unfold process_instruction
  dsimp only
  generalize field_opcode (fetch s) = op at h_case h_default ⊢
  generalize field_opcode_high (fetch s) = oph at h_bcond h_case h_default ⊢
  by_cases h0 : oph = 0x54
  · rw [if_pos h0]
    exact h_bcond h0
  rw [if_neg h0]
  by_cases h1 : op = 0x6A2
  · rw [if_pos h1]
    exact h_case 0x6A2 _ (by simp) h0 h1
  rw [if_neg h1]
  by_cases h2 : op = 0x558
  · rw [if_pos h2]
    exact h_case 0x558 _ (by simp) h0 h2
  rw [if_neg h2]
  by_cases h3 : op = 0x758
  · rw [if_pos h3]
    exact h_case 0x758 _ (by simp) h0 h3
  rw [if_neg h3]
  by_cases h4 : op = 0x588
  · rw [if_pos h4]
    exact h_case 0x588 _ (by simp) h0 h4
  rw [if_neg h4]
  by_cases h5 : op = 0x788
  · rw [if_pos h5]
    exact h_case 0x788 _ (by simp) h0 h5
  rw [if_neg h5]
  by_cases h6 : op = 0x5d0
  · rw [if_pos h6]
    exact h_case 0x5d0 _ (by simp) h0 h6
  rw [if_neg h6]
  by_cases h7 : op = 0x750
  · rw [if_pos h7]
    exact h_case 0x750 _ (by simp) h0 h7
  rw [if_neg h7]
  by_cases h8 : op = 0x650
  · rw [if_pos h8]
    exact h_case 0x650 _ (by simp) h0 h8
  rw [if_neg h8]
  by_cases h9 : op = 0x550
  · rw [if_pos h9]
    exact h_case 0x550 _ (by simp) h0 h9
  rw [if_neg h9]
  by_cases h10 : op = 0x0A0
  · rw [if_pos h10]
    exact h_case 0x0A0 _ (by simp) h0 h10
  rw [if_neg h10]
  by_cases h11 : op = 0x6B0
  · rw [if_pos h11]
    exact h_case 0x6B0 _ (by simp) h0 h11
  rw [if_neg h11]
  by_cases h12 : op = 0x694
  · rw [if_pos h12]
    exact h_case 0x694 _ (by simp) h0 h12
  rw [if_neg h12]
  by_cases h13 : op = 0x69A
  · rw [if_pos h13]
    exact h_case 0x69A _ (by simp) h0 h13
  rw [if_neg h13]
  by_cases h14 : op = 0x69B
  · rw [if_pos h14]
    exact h_case 0x69B _ (by simp) h0 h14
  rw [if_neg h14]
  by_cases h15 : op = 0x7c0
  · rw [if_pos h15]
    exact h_case 0x7c0 _ (by simp) h0 h15
  rw [if_neg h15]
  by_cases h16 : op = 0x1c0
  · rw [if_pos h16]
    exact h_case 0x1c0 _ (by simp) h0 h16
  rw [if_neg h16]
  by_cases h17 : op = 0x3E1
  · rw [if_pos h17]
    exact h_case 0x3E1 _ (by simp) h0 h17
  rw [if_neg h17]
  by_cases h18 : op = 0x7c2
  · rw [if_pos h18]
    exact h_case 0x7c2 _ (by simp) h0 h18
  rw [if_neg h18]
  by_cases h19 : op = 0x1c2
  · rw [if_pos h19]
    exact h_case 0x1c2 _ (by simp) h0 h19
  rw [if_neg h19]
  by_cases h20 : op = 0x3c2
  · rw [if_pos h20]
    exact h_case 0x3c2 _ (by simp) h0 h20
  rw [if_neg h20]
  by_cases h21 : op = 0x458
  · rw [if_pos h21]
    exact h_case 0x458 _ (by simp) h0 h21
  rw [if_neg h21]
  by_cases h22 : op = 0x488
  · rw [if_pos h22]
    exact h_case 0x488 _ (by simp) h0 h22
  rw [if_neg h22]
  by_cases h23 : op = 0x4D8
  · rw [if_pos h23]
    exact h_case 0x4D8 _ (by simp) h0 h23
  rw [if_neg h23]
  by_cases h24 : op = 0x5A0
  · rw [if_pos h24]
    exact h_case 0x5A0 _ (by simp) h0 h24
  rw [if_neg h24]
  by_cases h25 : op = 0x5A8
  · rw [if_pos h25]
    exact h_case 0x5A8 _ (by simp) h0 h25
  rw [if_neg h25]
  exact h_default h0 (by
    simp [h1, h2, h3, h4, h5, h6, h7, h8, h9, h10, h11, h12, h13, h14, h15, h16, h17, h18,
    h19, h20, h21, h22, h23, h24, h25])

/-! ### More frame facts of the state-update helpers -/

theorem set_reg_value_frame (s : Sim) (r v : Nat) :
    (set_reg_value s r v).CURRENT_STATE = s.CURRENT_STATE
      ∧ (set_reg_value s r v).RUN_BIT = s.RUN_BIT
      ∧ (set_reg_value s r v).MEM = s.MEM
      ∧ (set_reg_value s r v).NEXT_STATE.PC = s.NEXT_STATE.PC
      ∧ (set_reg_value s r v).NEXT_STATE.FLAG_Z = s.NEXT_STATE.FLAG_Z
      ∧ (set_reg_value s r v).NEXT_STATE.FLAG_N = s.NEXT_STATE.FLAG_N
      ∧ (set_reg_value s r v).NEXT_STATE.FLAG_C = s.NEXT_STATE.FLAG_C
      ∧ (set_reg_value s r v).NEXT_STATE.FLAG_V = s.NEXT_STATE.FLAG_V := by
  unfold set_reg_value
  split <;> exact ⟨rfl, rfl, rfl, rfl, rfl, rfl, rfl, rfl⟩

@[simp] theorem set_reg_value_CURRENT_STATE (s : Sim) (r v : Nat) :
    (set_reg_value s r v).CURRENT_STATE = s.CURRENT_STATE := (set_reg_value_frame s r v).1

@[simp] theorem set_reg_value_RUN_BIT (s : Sim) (r v : Nat) :
    (set_reg_value s r v).RUN_BIT = s.RUN_BIT := (set_reg_value_frame s r v).2.1

@[simp] theorem set_reg_value_MEM (s : Sim) (r v : Nat) :
    (set_reg_value s r v).MEM = s.MEM := (set_reg_value_frame s r v).2.2.1

@[simp] theorem set_reg_value_FLAG_Z (s : Sim) (r v : Nat) :
    (set_reg_value s r v).NEXT_STATE.FLAG_Z = s.NEXT_STATE.FLAG_Z :=
  (set_reg_value_frame s r v).2.2.2.2.1

@[simp] theorem set_reg_value_FLAG_N (s : Sim) (r v : Nat) :
    (set_reg_value s r v).NEXT_STATE.FLAG_N = s.NEXT_STATE.FLAG_N :=
  (set_reg_value_frame s r v).2.2.2.2.2.1

@[simp] theorem set_reg_value_FLAG_C (s : Sim) (r v : Nat) :
    (set_reg_value s r v).NEXT_STATE.FLAG_C = s.NEXT_STATE.FLAG_C :=
  (set_reg_value_frame s r v).2.2.2.2.2.2.1

@[simp] theorem set_reg_value_FLAG_V (s : Sim) (r v : Nat) :
    (set_reg_value s r v).NEXT_STATE.FLAG_V = s.NEXT_STATE.FLAG_V :=
  (set_reg_value_frame s r v).2.2.2.2.2.2.2

/-- The CBZ and CBNZ handlers only assign `NEXT_STATE.PC`. -/
theorem case_CBZ_CBNZ_eq_set_next_pc (s : Sim) (w : Nat) :
    (∃ v, case_CBZ s w = set_next_pc s v) ∧ (∃ v, case_CBNZ s w = set_next_pc s v) := by
  unfold case_CBZ case_CBNZ
  dsimp only
  constructor <;> split <;> exact ⟨_, rfl⟩


theorem process_instruction_hlt (s : Sim) (h : field_opcode (fetch s) = 0x6A2) :
    process_instruction s = advance_pc (case_HLT s) := by
  have hh : field_opcode_high (fetch s) = 0xD4 := by rw [opcode_high_of_opcode, h]
  simp only [process_instruction, h, hh]
  rfl

/-- A word that is no `B.cond` and whose 11-bit field is no `case` label runs
the `default` case: only line 428 takes effect. -/
theorem process_instruction_default (s : Sim)
    (hh : field_opcode_high (fetch s) ≠ 0x54)
    (hop : field_opcode (fetch s) ∉
      [0x6A2, 0x558, 0x758, 0x588, 0x788, 0x5d0, 0x750, 0x650, 0x550, 0x0A0, 0x6B0,
        0x694, 0x69A, 0x69B, 0x7c0, 0x1c0, 0x3E1, 0x7c2, 0x1c2, 0x3c2, 0x458, 0x488,
        0x4D8, 0x5A0, 0x5A8]) :
    process_instruction s = advance_pc s := by
  apply process_instruction_cases_op (fun t => t = advance_pc s)
  · intro h
    exact absurd h hh
  · intro op t hmem _ hop2
    exfalso
    apply hop
    rw [hop2]
    simp only [List.mem_cons, List.mem_singleton, List.not_mem_nil, or_false,
      Prod.mk.injEq] at hmem
    repeat' (rcases hmem with ⟨rfl, rfl⟩ | hmem)
    all_goals try subst t
    all_goals simp
  · intro _ _
    rfl

theorem wrap64_aligned (pc : Nat) (k : Int) (hpc : pc % 4 = 0) :
    wrap64 ((pc : Int) + 4 * k) % 4 = 0 := by
  unfold wrap64
  omega

/-- Alignment of the staged program counter for every handler but BR. -/
theorem pc_aligned_of_cases (s : Sim) (hpc : s.CURRENT_STATE.PC % 4 = 0)
    (hbr : field_opcode_high (fetch s) ≠ 0x54 → field_opcode (fetch s) = 0x6B0 →
      s.CURRENT_STATE.REGS (field_Rn (fetch s)) % 4 = 0) :
    (process_instruction s).NEXT_STATE.PC % 4 = 0 := by
  have hi : ∀ w, wrap64 ((s.CURRENT_STATE.PC : Int) + extract_imm19 w) % 4 = 0 := by
    intro w
    rw [extract_imm19_eq]
    exact wrap64_aligned _ _ hpc
  have h4 : (s.CURRENT_STATE.PC + 4) % 2 ^ 64 % 4 = 0 := by omega
  have key : ∀ t : Sim, t.CURRENT_STATE = s.CURRENT_STATE →
      (advance_pc t).NEXT_STATE.PC % 4 = 0 := by
    intro t ht
    show (t.CURRENT_STATE.PC + 4) % 2 ^ 64 % 4 = 0
    rw [ht]
    exact h4
  apply process_instruction_cases_op (fun t => t.NEXT_STATE.PC % 4 = 0)
  · intro _
    rw [b_cond_eq]
    show (ite _ _ _ : Nat) % 4 = 0
    split
    · exact hi _
    · exact h4
  · intro op t hmem hh hop
    simp only [List.mem_cons, List.mem_singleton, List.not_mem_nil, or_false,
      Prod.mk.injEq] at hmem
    repeat' (rcases hmem with ⟨rfl, rfl⟩ | hmem)
    all_goals try subst t
    all_goals first
      | exact hbr hh hop
      | (apply key
         simp [case_HLT, case_ADDS_reg, case_SUBS_reg, case_ADDS_imm, case_SUBS_imm,
          case_ADCS, case_ANDS, case_EOR, case_ORR, case_MOVZ, case_LSL, case_LSR,
          case_STUR, case_STURB, case_STURH, case_LDUR, case_LDURB, case_LDURH,
          case_ADD_reg, case_ADD_imm, case_MUL, update_flags, update_flags_add,
          update_flags_sub])
      | (show wrap64 ((s.CURRENT_STATE.PC : Int) + _ * 4) % 4 = 0
         rw [mul_comm]
         exact wrap64_aligned _ _ hpc)
      | (unfold case_CBZ
         dsimp only
         split
         · exact hi _
         · exact h4)
      | (unfold case_CBNZ
         dsimp only
         split
         · exact hi _
         · exact h4)
  · intro _ _
    exact key s rfl

/-- C14: for a word whose bits [31:21] are `0x6A2` (HLT), after
`process_instruction` `RUN_BIT` is false, every register and the four flags of
`NEXT_STATE` have the values they had before the dispatch, memory is unchanged
and `NEXT_STATE.PC` is `CURRENT_STATE.PC + 4` modulo `2^64`. -/
theorem hlt_contract (s : Sim) (hop : field_opcode (fetch s) = 0x6A2) :
    (process_instruction s).RUN_BIT = false
      ∧ (process_instruction s).NEXT_STATE.REGS = s.NEXT_STATE.REGS
      ∧ (process_instruction s).NEXT_STATE.FLAG_Z = s.NEXT_STATE.FLAG_Z
      ∧ (process_instruction s).NEXT_STATE.FLAG_N = s.NEXT_STATE.FLAG_N
      ∧ (process_instruction s).NEXT_STATE.FLAG_C = s.NEXT_STATE.FLAG_C
      ∧ (process_instruction s).NEXT_STATE.FLAG_V = s.NEXT_STATE.FLAG_V
      ∧ (process_instruction s).MEM = s.MEM
      ∧ (process_instruction s).NEXT_STATE.PC = (s.CURRENT_STATE.PC + 4) % 2 ^ 64 := by
  rw [process_instruction_hlt s hop]
  exact ⟨rfl, rfl, rfl, rfl, rfl, rfl, rfl, rfl⟩

/-- Witness of C14: HLT in a state with a nonzero register and set flags. -/
theorem hlt_contract_witness :
    field_opcode (fetch st_hlt) = 0x6A2
      ∧ st_hlt.RUN_BIT = true
      ∧ (process_instruction st_hlt).RUN_BIT = false
      ∧ (process_instruction st_hlt).NEXT_STATE.REGS 1 = 9
      ∧ (process_instruction st_hlt).NEXT_STATE.FLAG_Z = 1
      ∧ (process_instruction st_hlt).NEXT_STATE.PC = 0x400004 :=
  have h := hlt_contract st_hlt (by decide)
  ⟨by decide, by decide, h.1, (congrFun h.2.1 1).trans (by decide),
    h.2.2.1.trans (by decide), h.2.2.2.2.2.2.2.trans (by decide)⟩

/-- C15: for a word whose bits [31:24] are not `0x54` and whose 11-bit field
[31:21] is none of the `case` labels, `process_instruction` leaves every
register, the four flags, memory and `RUN_BIT` unchanged and sets
`NEXT_STATE.PC` to `CURRENT_STATE.PC + 4` modulo `2^64`. -/
theorem unknown_opcode_contract (s : Sim)
    (hh : field_opcode_high (fetch s) ≠ 0x54)
    (hop : field_opcode (fetch s) ∉
      [0x6A2, 0x558, 0x758, 0x588, 0x788, 0x5d0, 0x750, 0x650, 0x550, 0x0A0, 0x6B0, 0x694,
        0x69A, 0x69B, 0x7c0, 0x1c0, 0x3E1, 0x7c2, 0x1c2, 0x3c2, 0x458, 0x488, 0x4D8, 0x5A0,
        0x5A8]) :
    (process_instruction s).NEXT_STATE.REGS = s.NEXT_STATE.REGS
      ∧ (process_instruction s).NEXT_STATE.FLAG_Z = s.NEXT_STATE.FLAG_Z
      ∧ (process_instruction s).NEXT_STATE.FLAG_N = s.NEXT_STATE.FLAG_N
      ∧ (process_instruction s).NEXT_STATE.FLAG_C = s.NEXT_STATE.FLAG_C
      ∧ (process_instruction s).NEXT_STATE.FLAG_V = s.NEXT_STATE.FLAG_V
      ∧ (process_instruction s).MEM = s.MEM
      ∧ (process_instruction s).RUN_BIT = s.RUN_BIT
      ∧ (process_instruction s).NEXT_STATE.PC = (s.CURRENT_STATE.PC + 4) % 2 ^ 64 := by
  rw [process_instruction_default s hh hop]
  exact ⟨rfl, rfl, rfl, rfl, rfl, rfl, rfl, rfl⟩

/-- Witness of C15: the word 0 in a state with a nonzero register and set
flags. -/
theorem unknown_opcode_contract_witness :
    field_opcode_high (fetch st_unknown) = 0
      ∧ field_opcode (fetch st_unknown) = 0
      ∧ (process_instruction st_unknown).NEXT_STATE.REGS 1 = 9
      ∧ (process_instruction st_unknown).NEXT_STATE.FLAG_C = 1
      ∧ (process_instruction st_unknown).RUN_BIT = true
      ∧ (process_instruction st_unknown).NEXT_STATE.PC = 0x400004 :=
  have h := unknown_opcode_contract st_unknown (by decide) (by decide)
  ⟨by decide, by decide, (congrFun h.1 1).trans (by decide), h.2.2.2.1.trans (by decide),
    h.2.2.2.2.2.2.1.trans (by decide), h.2.2.2.2.2.2.2.trans (by decide)⟩

/-- C16 (counterexample): `BR X1` with `X1 = 0x400002` starts from the aligned
`PC = 0x400000` and stages `NEXT_STATE.PC = 0x400002`, which is no multiple
of 4. -/
theorem pc_alignment_broken_by_br :
    field_opcode (fetch st_br_unaligned) = 0x6B0
      ∧ st_br_unaligned.CURRENT_STATE.PC % 4 = 0
      ∧ (process_instruction st_br_unaligned).NEXT_STATE.PC = 0x400002
      ∧ ¬ ((process_instruction st_br_unaligned).NEXT_STATE.PC % 4 = 0) := by
  decide

/-- C16 (amended): BR (11-bit opcode `0x6B0`) stages the value of the register
named by `Rn` as `NEXT_STATE.PC` as it is, for every register value, so after
BR the staged PC is a multiple of 4 exactly when that register value is; and
from a `CURRENT_STATE.PC` that is a multiple of 4, `NEXT_STATE.PC` after
`process_instruction` is again a multiple of 4 for every fetched word and
register content, provided the word is not dispatched to BR or the register
named by `Rn` holds a multiple of 4. -/
theorem pc_alignment_preserved_outside_br (s : Sim) :
    (field_opcode (fetch s) = 0x6B0 →
        (process_instruction s).NEXT_STATE.PC
          = s.CURRENT_STATE.REGS (field_Rn (fetch s)))
      ∧ (field_opcode (fetch s) = 0x6B0 →
          ((process_instruction s).NEXT_STATE.PC % 4 = 0
            ↔ s.CURRENT_STATE.REGS (field_Rn (fetch s)) % 4 = 0))
      ∧ (s.CURRENT_STATE.PC % 4 = 0 →
          (field_opcode (fetch s) ≠ 0x6B0
            ∨ s.CURRENT_STATE.REGS (field_Rn (fetch s)) % 4 = 0) →
          (process_instruction s).NEXT_STATE.PC % 4 = 0) := by
  have hbr : field_opcode (fetch s) = 0x6B0 →
      (process_instruction s).NEXT_STATE.PC
        = s.CURRENT_STATE.REGS (field_Rn (fetch s)) := by
    intro h
    have hh : field_opcode_high (fetch s) = 0xD6 := by rw [opcode_high_of_opcode, h]
    simp only [process_instruction, h, hh]
    rfl
  refine ⟨hbr, ?_, ?_⟩
  · intro h
    rw [hbr h]
  · intro hpc hreg
    apply pc_aligned_of_cases s hpc
    intro _ hop
    rcases hreg with hne | hal
    · exact absurd hop hne
    · exact hal

/-- Witness of C16 (amended): `BR X1` with the odd `X1 = 0x400001` stages
exactly `0x400001`, which is no multiple of 4; `BR X1` with the aligned
`X1 = 0x400010` stages the aligned `0x400010`. -/
theorem pc_alignment_preserved_outside_br_witness :
    field_opcode (fetch st_br_odd) = 0x6B0
      ∧ st_br_odd.CURRENT_STATE.REGS (field_Rn (fetch st_br_odd)) = 0x400001
      ∧ (process_instruction st_br_odd).NEXT_STATE.PC = 0x400001
      ∧ ¬ ((process_instruction st_br_odd).NEXT_STATE.PC % 4 = 0)
      ∧ st_br_aligned.CURRENT_STATE.PC % 4 = 0
      ∧ st_br_aligned.CURRENT_STATE.REGS (field_Rn (fetch st_br_aligned)) % 4 = 0
      ∧ (process_instruction st_br_aligned).NEXT_STATE.PC % 4 = 0
      ∧ (process_instruction st_br_aligned).NEXT_STATE.PC = 0x400010 :=
  have hu := pc_alignment_preserved_outside_br st_br_odd
  have ha := pc_alignment_preserved_outside_br st_br_aligned
  ⟨by decide, by decide, (hu.1 (by decide)).trans (by decide),
    fun h => absurd ((hu.2.1 (by decide)).mp h) (by decide),
    by decide, by decide, ha.2.2 (by decide) (Or.inr (by decide)),
    (ha.1 (by decide)).trans (by decide)⟩

/-- C17: for a word that is not dispatched to ADDS/SUBS (register or immediate),
ADCS, ANDS, LSL or LSR, that is, bits [31:24] are `0x54` or the 11-bit opcode is
none of `0x558`, `0x588`, `0x758`, `0x788`, `0x5d0`, `0x750`, `0x69A`, `0x69B`,
the Z, N, C and V flags of `NEXT_STATE` keep their values from before the
dispatch. -/
theorem flags_written_only_by_flag_setters (s : Sim)
    (h : field_opcode_high (fetch s) = 0x54
      ∨ field_opcode (fetch s) ∉ [0x558, 0x588, 0x758, 0x788, 0x5d0, 0x750, 0x69A, 0x69B]) :
    (process_instruction s).NEXT_STATE.FLAG_Z = s.NEXT_STATE.FLAG_Z
      ∧ (process_instruction s).NEXT_STATE.FLAG_N = s.NEXT_STATE.FLAG_N
      ∧ (process_instruction s).NEXT_STATE.FLAG_C = s.NEXT_STATE.FLAG_C
      ∧ (process_instruction s).NEXT_STATE.FLAG_V = s.NEXT_STATE.FLAG_V := by
  apply process_instruction_cases_op
    (fun t => t.NEXT_STATE.FLAG_Z = s.NEXT_STATE.FLAG_Z
      ∧ t.NEXT_STATE.FLAG_N = s.NEXT_STATE.FLAG_N
      ∧ t.NEXT_STATE.FLAG_C = s.NEXT_STATE.FLAG_C
      ∧ t.NEXT_STATE.FLAG_V = s.NEXT_STATE.FLAG_V)
  · intro _
    obtain ⟨v, hv⟩ := b_cond_eq_set_next_pc s (fetch s)
    rw [hv]
    exact ⟨rfl, rfl, rfl, rfl⟩
  · intro op t hmem hh hop
    have h' := h.resolve_left hh
    rw [hop] at h'
    simp only [List.mem_cons, List.mem_singleton, List.not_mem_nil, or_false,
      Prod.mk.injEq] at hmem
    obtain ⟨v1, hv1⟩ := (case_CBZ_CBNZ_eq_set_next_pc s (fetch s)).1
    obtain ⟨v2, hv2⟩ := (case_CBZ_CBNZ_eq_set_next_pc s (fetch s)).2
    repeat' (rcases hmem with ⟨rfl, rfl⟩ | hmem)
    all_goals try subst t
    all_goals first
      | (exfalso; revert h'; simp; done)
      | (simp [advance_pc, set_next_pc, case_HLT, case_EOR, case_ORR, case_B, case_BR,
          case_MOVZ, case_STUR, case_STURB, case_STURH, case_LDUR, case_LDURB, case_LDURH,
          case_ADD_reg, case_ADD_imm, case_MUL, hv1, hv2])
  · intro _ _
    exact ⟨rfl, rfl, rfl, rfl⟩

/-- Witness of C17: `MUL X0, X1, X2` writes `X0 = 15` and leaves Z = 1, N = 1,
C = 1, V = 0 as they were. -/
theorem flags_written_only_by_flag_setters_witness :
    field_opcode (fetch st_mul) = 0x4D8
      ∧ (process_instruction st_mul).NEXT_STATE.REGS 0 = 15
      ∧ (process_instruction st_mul).NEXT_STATE.FLAG_Z = 1
      ∧ (process_instruction st_mul).NEXT_STATE.FLAG_N = 1
      ∧ (process_instruction st_mul).NEXT_STATE.FLAG_C = 1
      ∧ (process_instruction st_mul).NEXT_STATE.FLAG_V = 0 :=
  have h := flags_written_only_by_flag_setters st_mul (Or.inr (by decide))
  ⟨by decide, by decide, h.1.trans (by decide), h.2.1.trans (by decide),
    h.2.2.1.trans (by decide), h.2.2.2.trans (by decide)⟩

/-! ## Branches, loads, stores and immediates behind the 11-bit opcode -/

/-- C11 (the code departs from the claim): `B` with `imm26 = 0x3FFFFFF`, the
displacement `-4`.  The word `0x17FFFFFF` has bits [31:26] = `0b000101`, so the
claim asks for `NEXT_STATE.PC = PC - 4 = 0x3FFFFC`.  The switch tests the 11-bit
field [31:21], here `0x0BF` (it includes the top five bits of `imm26`), which
is not the label `0x0A0`; the default advances to `PC + 4`. -/
theorem b_negative_offset_falls_to_default :
    fetch st_b_back >>> 26 = 0b000101
      ∧ fetch st_b_back &&& 0x03FFFFFF = 0x3FFFFFF
      ∧ st_b_back.CURRENT_STATE.PC = 0x400000
      ∧ field_opcode (fetch st_b_back) = 0x0BF
      ∧ (case_B st_b_back (fetch st_b_back)).NEXT_STATE.PC = 0x3FFFFC
      ∧ (process_instruction st_b_back).NEXT_STATE.PC = 0x400004
      ∧ (process_instruction st_b_back).NEXT_STATE.PC ≠ 0x3FFFFC := by
  decide

/-- C12 (the code departs from the claim): `STURB W1, [X2]` then
`LDURB W3, [X2]` with `X1 = 0xAB` and base `X2 = 0x100000000`.  The store
computes its address in a `uint32_t` and writes the byte at address 0; the
load computes it in a `uint64_t` and reads address `0x100000000`, which still
holds 0.  The loaded register is 0, not `0xAB`. -/
theorem sturb_ldurb_round_trip_breaks_above_32_bits :
    field_opcode (fetch st_sturb_ldurb_high) = 0x1c0
      ∧ field_opcode (fetch (cycle st_sturb_ldurb_high)) = 0x1c2
      ∧ field_Rn (fetch st_sturb_ldurb_high) = 2
      ∧ field_Rn (fetch (cycle st_sturb_ldurb_high)) = 2
      ∧ extract_imm9 (fetch st_sturb_ldurb_high) = 0
      ∧ extract_imm9 (fetch (cycle st_sturb_ldurb_high)) = 0
      ∧ st_sturb_ldurb_high.CURRENT_STATE.REGS 2 = 0x100000000
      ∧ st_sturb_ldurb_high.CURRENT_STATE.REGS (field_Rd (fetch st_sturb_ldurb_high)) = 0xAB
      ∧ (cycle st_sturb_ldurb_high).MEM 0 = 0xAB
      ∧ (cycle st_sturb_ldurb_high).MEM 0x100000000 = 0
      ∧ field_Rd (fetch (cycle st_sturb_ldurb_high)) = 3
      ∧ (cycle (cycle st_sturb_ldurb_high)).CURRENT_STATE.REGS 3 = 0
      ∧ (cycle (cycle st_sturb_ldurb_high)).CURRENT_STATE.REGS 3 ≠ 0xAB := by
  decide

/-- C13 (the code departs from the claim): `STUR X1, [X2]` then `LDUR X3, [X2]`
with `X1 = 0x1122334455667788` and `X2 = 0x10000000`.  The store is a single
`mem_write_32` of the low half: the word at `[X2]` becomes `0x55667788`, the
word at `[X2 + 4]` stays 0 instead of `0x11223344`, and the load returns
`0x55667788`. -/
theorem stur_stores_low_word_only :
    field_opcode (fetch st_stur_ldur) = 0x7c0
      ∧ field_opcode (fetch (cycle st_stur_ldur)) = 0x7c2
      ∧ field_Rn (fetch st_stur_ldur) = 2
      ∧ field_Rn (fetch (cycle st_stur_ldur)) = 2
      ∧ extract_imm9 (fetch st_stur_ldur) = 0
      ∧ extract_imm9 (fetch (cycle st_stur_ldur)) = 0
      ∧ st_stur_ldur.CURRENT_STATE.REGS 2 = 0x10000000
      ∧ st_stur_ldur.CURRENT_STATE.REGS (field_Rd (fetch st_stur_ldur)) = 0x1122334455667788
      ∧ mem_read_32 (cycle st_stur_ldur).MEM 0x10000000 = 0x55667788
      ∧ mem_read_32 (cycle st_stur_ldur).MEM 0x10000004 = 0
      ∧ mem_read_32 (cycle st_stur_ldur).MEM 0x10000004 ≠ 0x11223344
      ∧ field_Rd (fetch (cycle st_stur_ldur)) = 3
      ∧ (cycle (cycle st_stur_ldur)).CURRENT_STATE.REGS 3 = 0x55667788
      ∧ (cycle (cycle st_stur_ldur)).CURRENT_STATE.REGS 3 ≠ 0x1122334455667788 := by
  decide

/-- C18 (the code departs from the claim): `ADD X0, X1, #1, LSL #12` with
`X1 = 5`.  The word `0x91400420` has bits [31:24] = `0x91`, shift field 1 and
`imm12 = 1`, so the claim asks for `X0 = 5 + (1 << 12) = 4101`.  The 11-bit
field [31:21] is `0x48A` (it includes the shift field and the top bit of
`imm12`), not the label `0x488`; the default case writes no register and `X0`
keeps `0x77`. -/
theorem add_imm_lsl12_falls_to_default :
    field_opcode_high (fetch st_add_imm_lsl12) = 0x91
      ∧ (fetch st_add_imm_lsl12 >>> 22) &&& 0x3 = 1
      ∧ (fetch st_add_imm_lsl12 >>> 10) &&& 0xFFF = 1
      ∧ get_reg_value st_add_imm_lsl12 (field_Rn (fetch st_add_imm_lsl12)) = 5
      ∧ field_Rd (fetch st_add_imm_lsl12) = 0
      ∧ field_opcode (fetch st_add_imm_lsl12) = 0x48A
      ∧ (advance_pc (case_ADD_imm st_add_imm_lsl12
            (fetch st_add_imm_lsl12))).NEXT_STATE.REGS 0 = 4101
      ∧ (process_instruction st_add_imm_lsl12).NEXT_STATE.REGS 0 = 0x77
      ∧ (process_instruction st_add_imm_lsl12).NEXT_STATE.REGS 0 ≠ 4101 := by
  decide

/-- C19 (the code departs from the claim): `MOVZ X0, #1, LSL #16`.  The word
`0xD2A00020` has bits [31:23] = `0b110100101`, `hw = 1` and `imm16 = 1`, so the
claim asks for `X0 = 1`.  The 11-bit field [31:21] is `0x695` (it includes
`hw`), not the label `0x694`; the default case writes no register and `X0`
keeps `0x77`. -/
theorem movz_nonzero_hw_falls_to_default :
    fetch st_movz_hw1 >>> 23 = 0b110100101
      ∧ (fetch st_movz_hw1 >>> 21) &&& 0x3 = 1
      ∧ (fetch st_movz_hw1 >>> 5) &&& 0xFFFF = 1
      ∧ field_Rd (fetch st_movz_hw1) = 0
      ∧ field_opcode (fetch st_movz_hw1) = 0x695
      ∧ (advance_pc (case_MOVZ st_movz_hw1 (fetch st_movz_hw1))).NEXT_STATE.REGS 0 = 1
      ∧ (process_instruction st_movz_hw1).NEXT_STATE.REGS 0 = 0x77
      ∧ (process_instruction st_movz_hw1).NEXT_STATE.REGS 0 ≠ 1
      ∧ (process_instruction st_movz_hw1).NEXT_STATE.PC = 0x400004 := by
  decide

/-- C20 (the code departs from the claim): `lsl X4, X3, 4`, the word
`0xD37CEC64` of the comment at the LSL case, with `X3 = 1`.  The claim asks
for `X4 = 1 << 4 = 16`.  Bit 21 of the word is the top bit of
`(64 - 4) mod 64 = 60`, so the 11-bit field [31:21] is `0x69B`, the label of
the LSR case, which shifts right by bits [21:16] = 60 and stages `X4 = 0`. -/
theorem lsl_by_4_runs_the_lsr_case :
    fetch st_lsl4 = 0xD37CEC64
      ∧ fetch st_lsl4 >>> 22 = 0b1101001101
      ∧ (fetch st_lsl4 >>> 16) &&& 0x3F = (64 - 4) % 64
      ∧ (fetch st_lsl4 >>> 10) &&& 0x3F = 63 - 4
      ∧ field_Rn (fetch st_lsl4) = 3
      ∧ field_Rd (fetch st_lsl4) = 4
      ∧ st_lsl4.CURRENT_STATE.REGS 3 = 1
      ∧ field_opcode (fetch st_lsl4) = 0x69B
      ∧ (advance_pc (case_LSL st_lsl4 (fetch st_lsl4))).NEXT_STATE.REGS 4 = 16
      ∧ (process_instruction st_lsl4).NEXT_STATE.REGS 4 = 0
      ∧ (process_instruction st_lsl4).NEXT_STATE.REGS 4 ≠ (1 <<< 4) % 2 ^ 64 := by
  decide

/-! ## What the handlers do when the switch reaches them -/

theorem process_instruction_b (s : Sim) (h : field_opcode (fetch s) = 0x0A0) :
    process_instruction s = case_B s (fetch s) := by
  have hh : field_opcode_high (fetch s) = 0x14 := by rw [opcode_high_of_opcode, h]
  simp only [process_instruction, h, hh]
  rfl

theorem process_instruction_add_imm (s : Sim) (h : field_opcode (fetch s) = 0x488) :
    process_instruction s = advance_pc (case_ADD_imm s (fetch s)) := by
  have hh : field_opcode_high (fetch s) = 0x91 := by rw [opcode_high_of_opcode, h]
  simp only [process_instruction, h, hh]
  rfl

theorem process_instruction_movz (s : Sim) (h : field_opcode (fetch s) = 0x694) :
    process_instruction s = advance_pc (case_MOVZ s (fetch s)) := by
  have hh : field_opcode_high (fetch s) = 0xD2 := by rw [opcode_high_of_opcode, h]
  simp only [process_instruction, h, hh]
  rfl

theorem process_instruction_lsl (s : Sim) (h : field_opcode (fetch s) = 0x69A) :
    process_instruction s = advance_pc (case_LSL s (fetch s)) := by
  have hh : field_opcode_high (fetch s) = 0xD3 := by rw [opcode_high_of_opcode, h]
  simp only [process_instruction, h, hh]
  rfl

theorem process_instruction_lsr (s : Sim) (h : field_opcode (fetch s) = 0x69B) :
    process_instruction s = advance_pc (case_LSR s (fetch s)) := by
  have hh : field_opcode_high (fetch s) = 0xD3 := by rw [opcode_high_of_opcode, h]
  simp only [process_instruction, h, hh]
  rfl

theorem and_0x3 (x : Nat) : x &&& 0x3 = x % 4 :=
  Nat.and_pow_two_sub_one_eq_mod x 2

theorem and_0x3F (x : Nat) : x &&& 0x3F = x % 64 :=
  Nat.and_pow_two_sub_one_eq_mod x 6

theorem and_0x03FFFFFF (x : Nat) : x &&& 0x03FFFFFF = x % 67108864 :=
  Nat.and_pow_two_sub_one_eq_mod x 26

/-- B when the switch reaches its case: the 11-bit field is `0x0A0` only if bits
[25:21] of the word are zero, so `imm26 < 2^21` is non-negative and the branch
goes forward by `4 * imm26`. -/
theorem b_when_dispatched (s : Sim) (hop : field_opcode (fetch s) = 0x0A0) :
    fetch s &&& 0x03FFFFFF < 2 ^ 21
      ∧ (process_instruction s).NEXT_STATE.PC
          = (s.CURRENT_STATE.PC + 4 * (fetch s &&& 0x03FFFFFF)) % 2 ^ 64 := by
  rw [process_instruction_b s hop]
  unfold field_opcode at hop
  rw [and_0x7FF, Nat.shiftRight_eq_div_pow] at hop
  rw [and_0x03FFFFFF]
  have hlt : fetch s % 67108864 < 2 ^ 21 := by omega
  refine ⟨hlt, ?_⟩
  show wrap64 ((s.CURRENT_STATE.PC : Int)
      + (toInt32 (((fetch s &&& 0x03FFFFFF) <<< 6) % 2 ^ 32) >>> 6) * 4) = _
  rw [and_0x03FFFFFF, Nat.shiftLeft_eq]
  generalize fetch s % 67108864 = m at hlt ⊢
  have h1 : toInt32 (m * 2 ^ 6 % 2 ^ 32) = ((m * 64 : Nat) : Int) := by
    unfold toInt32
    split_ifs <;> omega
  have h2 : (((m * 64 : Nat) : Int) >>> (6 : Int)) = ((m : Nat) : Int) := by
    have h3 := Int.shiftRight_coe_nat (m * 64) 6
    rw [Nat.shiftRight_eq_div_pow] at h3
    have h4 : m * 64 / 2 ^ 6 = m := by omega
    rw [h4] at h3
    exact h3
  rw [h1, h2]
  unfold wrap64
  omega

/-- ADD (immediate) when the switch reaches its case: the 11-bit field is
`0x488` only if the shift field is 0 and `imm12 < 2^11`; then `Rd` receives
`Xn + imm12` modulo `2^64`. -/
theorem add_imm_when_dispatched (s : Sim) (hop : field_opcode (fetch s) = 0x488) :
    (fetch s >>> 22) &&& 0x3 = 0
      ∧ (fetch s >>> 10) &&& 0xFFF < 2 ^ 11
      ∧ (field_Rd (fetch s) ≠ 31 →
          (process_instruction s).NEXT_STATE.REGS (field_Rd (fetch s))
            = (get_reg_value s (field_Rn (fetch s)) + ((fetch s >>> 10) &&& 0xFFF)) % 2 ^ 64) := by
  rw [process_instruction_add_imm s hop]
  unfold field_opcode at hop
  rw [and_0x7FF, Nat.shiftRight_eq_div_pow] at hop
  have hs : (fetch s >>> 22) &&& 0x3 = 0 := by
    rw [and_0x3, Nat.shiftRight_eq_div_pow]
    omega
  have hi : (fetch s >>> 10) &&& 0xFFF < 2 ^ 11 := by
    rw [show (0xFFF : Nat) = 2 ^ 12 - 1 by norm_num, Nat.and_pow_two_sub_one_eq_mod,
      Nat.shiftRight_eq_div_pow]
    omega
  refine ⟨hs, hi, ?_⟩
  intro hd
  unfold case_ADD_imm
  dsimp only
  rw [hs]
  show (set_reg_value s _ _).NEXT_STATE.REGS _ = _
  rw [set_reg_value_REGS]
  simp [hd]

/-- MOVZ when the switch reaches its case: the 11-bit field is `0x694` only if
`hw = 0`; then `Rd` receives `imm16`. -/
theorem movz_when_dispatched (s : Sim) (hop : field_opcode (fetch s) = 0x694) :
    (fetch s >>> 21) &&& 0x3 = 0
      ∧ (field_Rd (fetch s) ≠ 31 →
          (process_instruction s).NEXT_STATE.REGS (field_Rd (fetch s))
            = (fetch s >>> 5) &&& 0xFFFF) := by
  rw [process_instruction_movz s hop]
  unfold field_opcode at hop
  rw [and_0x7FF, Nat.shiftRight_eq_div_pow] at hop
  have hs : (fetch s >>> 21) &&& 0x3 = 0 := by
    rw [and_0x3, Nat.shiftRight_eq_div_pow]
    omega
  refine ⟨hs, ?_⟩
  intro hd
  unfold case_MOVZ
  dsimp only
  show (set_reg_value s _ _).NEXT_STATE.REGS _ = _
  rw [set_reg_value_REGS]
  simp [hd]

theorem and_0x3FF (x : Nat) : x &&& 0x3FF = x % 1024 :=
  Nat.and_pow_two_sub_one_eq_mod x 10

/-- LSL (immediate) for shift amounts 33..63: the word of `lsl Xd, Xn, #k` has
bit 21 clear, reaches the LSL case, and `Rd` receives `Xn << k` modulo `2^64`,
with Z and N set from that result. -/
theorem lsl_immediate_33_to_63 (s : Sim) (k : Nat) (hk : 33 ≤ k) (hk2 : k ≤ 63)
    (h1 : (fetch s >>> 22) &&& 0x3FF = 0b1101001101)
    (h2 : (fetch s >>> 16) &&& 0x3F = (64 - k) % 64)
    (h3 : (fetch s >>> 10) &&& 0x3F = 63 - k) :
    field_opcode (fetch s) = 0x69A
      ∧ (field_Rd (fetch s) ≠ 31 →
          (process_instruction s).NEXT_STATE.REGS (field_Rd (fetch s))
            = (s.CURRENT_STATE.REGS (field_Rn (fetch s)) <<< k) % 2 ^ 64)
      ∧ (process_instruction s).NEXT_STATE.FLAG_Z
          = (if (s.CURRENT_STATE.REGS (field_Rn (fetch s)) <<< k) % 2 ^ 64 = 0 then 1 else 0)
      ∧ (process_instruction s).NEXT_STATE.FLAG_N
          = (if toInt64 ((s.CURRENT_STATE.REGS (field_Rn (fetch s)) <<< k) % 2 ^ 64) < 0
              then 1 else 0) := by
  have hop : field_opcode (fetch s) = 0x69A := by
    unfold field_opcode
    rw [and_0x3FF, Nat.shiftRight_eq_div_pow] at h1
    rw [and_0x3F, Nat.shiftRight_eq_div_pow] at h2
    rw [and_0x7FF, Nat.shiftRight_eq_div_pow]
    omega
  have hsh : 63 - ((fetch s >>> 10) &&& 0x3F) = k := by
    rw [h3]
    omega
  rw [process_instruction_lsl s hop]
  unfold case_LSL
  dsimp only
  rw [hsh]
  refine ⟨hop, ?_, rfl, rfl⟩
  intro hd
  show (set_reg_value s _ _).NEXT_STATE.REGS _ = _
  rw [set_reg_value_REGS]
  simp [hd]

/-- LSL (immediate) for shift amounts 1..32: the word of `lsl Xd, Xn, #k` has
bit 21 set, so its 11-bit field is `0x69B` and it runs the LSR case, which
stages `Xn >> (64 - k)`. -/
theorem lsl_immediate_1_to_32_runs_lsr (s : Sim) (k : Nat) (hk : 1 ≤ k) (hk2 : k ≤ 32)
    (h1 : (fetch s >>> 22) &&& 0x3FF = 0b1101001101)
    (h2 : (fetch s >>> 16) &&& 0x3F = (64 - k) % 64) :
    field_opcode (fetch s) = 0x69B
      ∧ (field_Rd (fetch s) ≠ 31 →
          (process_instruction s).NEXT_STATE.REGS (field_Rd (fetch s))
            = s.CURRENT_STATE.REGS (field_Rn (fetch s)) >>> (64 - k)) := by
  have hop : field_opcode (fetch s) = 0x69B := by
    unfold field_opcode
    rw [and_0x3FF, Nat.shiftRight_eq_div_pow] at h1
    rw [and_0x3F, Nat.shiftRight_eq_div_pow] at h2
    rw [and_0x7FF, Nat.shiftRight_eq_div_pow]
    omega
  have hsh : (fetch s >>> 16) &&& 0x3F = 64 - k := by
    rw [h2]
    omega
  rw [process_instruction_lsr s hop]
  unfold case_LSR
  dsimp only
  rw [hsh]
  refine ⟨hop, ?_⟩
  intro hd
  show (set_reg_value s _ _).NEXT_STATE.REGS _ = _
  rw [set_reg_value_REGS]
  simp [hd]

/-! ### Stores and loads over the byte memory -/

theorem mem_read_32_lt (m : Nat → Nat) (a : Nat) : mem_read_32 m a < 2 ^ 32 := by
  unfold mem_read_32
  omega

/-- Reading back the word just written gives its low 32 bits. -/
theorem mem_read_32_write_same (m : Nat → Nat) (a v : Nat) :
    mem_read_32 (mem_write_32 m a v) a = v % 2 ^ 32 := by
  unfold mem_read_32 mem_write_32
  have e1 : ¬ (a + 1 = a) := by omega
  have e2 : ¬ (a + 2 = a) := by omega
  have e3 : ¬ (a + 2 = a + 1) := by omega
  have e4 : ¬ (a + 3 = a) := by omega
  have e5 : ¬ (a + 3 = a + 1) := by omega
  have e6 : ¬ (a + 3 = a + 2) := by omega
  simp only [if_true, if_false, e1, e2, e3, e4, e5, e6]
  omega

/-- The read-modify-write value of STURB: the old word with its low byte
replaced. -/
theorem sturb_value (x r : Nat) :
    (x &&& 0xFFFFFF00) ||| (r &&& 0xFF) = 256 * (x / 256 % 2 ^ 24) + r % 256 := by
  have hmask : x &&& 0xFFFFFF00 = 2 ^ 8 * (x / 256 % 2 ^ 24) := by
    apply Nat.eq_of_testBit_eq
    intro i
    have hc : (0xFFFFFF00 : Nat) = (2 ^ 24 - 1) <<< 8 := by decide
    have hx : 2 ^ 8 * (x / 256 % 2 ^ 24) = ((x >>> 8) % 2 ^ 24) <<< 8 := by
      rw [Nat.shiftLeft_eq, Nat.shiftRight_eq_div_pow]
      ring
    rw [hx, hc, Nat.testBit_and, Nat.testBit_shiftLeft, Nat.testBit_shiftLeft,
      Nat.testBit_two_pow_sub_one, Nat.testBit_mod_two_pow, Nat.testBit_shiftRight]
    by_cases h8 : i ≥ 8
    · have : 8 + (i - 8) = i := by omega
      rw [this]
      cases x.testBit i <;> simp [h8]
    · simp [h8]
  rw [hmask, and_0xFF, ← Nat.mul_add_lt_is_or (Nat.mod_lt _ (by norm_num))]

theorem process_instruction_sturb (s : Sim) (h : field_opcode (fetch s) = 0x1c0) :
    process_instruction s = advance_pc (case_STURB s (fetch s)) := by
  have hh : field_opcode_high (fetch s) = 0x38 := by rw [opcode_high_of_opcode, h]
  simp only [process_instruction, h, hh]
  rfl

theorem process_instruction_ldurb (s : Sim) (h : field_opcode (fetch s) = 0x1c2) :
    process_instruction s = advance_pc (case_LDURB s (fetch s)) := by
  have hh : field_opcode_high (fetch s) = 0x38 := by rw [opcode_high_of_opcode, h]
  simp only [process_instruction, h, hh]
  rfl

/-- STURB then LDURB with the same `Rn` and `imm9`, when `Xn + imm9` lies in
`[0, 2^32)` and both buffers agree on `Xn`: the load stages the low byte of the
stored register, zero-extended, and the upper three bytes of the word at
`[Xn + imm9]` are unchanged by the store. -/
theorem sturb_ldurb_round_trip_within_32_bits (s : Sim)
    (h1 : field_opcode (fetch s) = 0x1c0)
    (h2 : field_opcode (fetch (cycle s)) = 0x1c2)
    (hrn : field_Rn (fetch (cycle s)) = field_Rn (fetch s))
    (himm : extract_imm9 (fetch (cycle s)) = extract_imm9 (fetch s))
    (hbuf : s.NEXT_STATE.REGS (field_Rn (fetch s))
      = s.CURRENT_STATE.REGS (field_Rn (fetch s)))
    (hlo : 0 ≤ (s.CURRENT_STATE.REGS (field_Rn (fetch s)) : Int) + extract_imm9 (fetch s))
    (hhi : (s.CURRENT_STATE.REGS (field_Rn (fetch s)) : Int) + extract_imm9 (fetch s) < 2 ^ 32)
    (hd : field_Rd (fetch (cycle s)) ≠ 31) :
    (process_instruction (cycle s)).NEXT_STATE.REGS (field_Rd (fetch (cycle s)))
        = s.CURRENT_STATE.REGS (field_Rd (fetch s)) % 256
      ∧ mem_read_32 (cycle s).MEM
            ((s.CURRENT_STATE.REGS (field_Rn (fetch s)) : Int)
              + extract_imm9 (fetch s)).toNat / 256
          = mem_read_32 s.MEM
            ((s.CURRENT_STATE.REGS (field_Rn (fetch s)) : Int)
              + extract_imm9 (fetch s)).toNat / 256 := by
  have hc : cycle s = commit (advance_pc (case_STURB s (fetch s))) := by
    unfold cycle
    rw [process_instruction_sturb s h1]
  have hregs : (cycle s).CURRENT_STATE.REGS = s.NEXT_STATE.REGS := by
    rw [hc]
    rfl
  generalize hx : (s.CURRENT_STATE.REGS (field_Rn (fetch s)) : Int) + extract_imm9 (fetch s)
    = x at hlo hhi ⊢
  have ha : (x % 2 ^ 32).toNat = x.toNat := by omega
  have hmem : (cycle s).MEM = mem_write_32 s.MEM x.toNat
      (((mem_read_32 s.MEM x.toNat &&& 0xFFFFFF00)
        ||| (s.CURRENT_STATE.REGS (field_Rd (fetch s)) &&& 0xFF)) % 2 ^ 32) := by
    rw [hc]
    show (case_STURB s (fetch s)).MEM = _
    unfold case_STURB
    dsimp only
    rw [hx, ha]
  have hrd : mem_read_32 (cycle s).MEM x.toNat
      = 256 * (mem_read_32 s.MEM x.toNat / 256)
        + s.CURRENT_STATE.REGS (field_Rd (fetch s)) % 256 := by
    rw [hmem, mem_read_32_write_same, sturb_value]
    have := mem_read_32_lt s.MEM x.toNat
    omega
  constructor
  · rw [process_instruction_ldurb (cycle s) h2]
    unfold case_LDURB
    dsimp only
    show (set_reg_value (cycle s) _ _).NEXT_STATE.REGS _ = _
    rw [set_reg_value_REGS, if_pos ⟨hd, rfl⟩, hregs, hrn, himm, hbuf, hx]
    have hw : wrap64 x = x.toNat := by
      unfold wrap64
      omega
    rw [hw, hrd, and_0xFF]
    omega
  · rw [hrd]
    omega

theorem process_instruction_stur (s : Sim) (h : field_opcode (fetch s) = 0x7c0) :
    process_instruction s = advance_pc (case_STUR s (fetch s)) := by
  have hh : field_opcode_high (fetch s) = 0xF8 := by rw [opcode_high_of_opcode, h]
  simp only [process_instruction, h, hh]
  rfl

/-- STUR writes exactly one 32-bit word: after the dispatch the word at the
32-bit address `(Xn + imm9) mod 2^32` holds the low half of the source
register, and every byte outside these four, those of the next word among
them, is as before. -/
theorem stur_writes_one_word (s : Sim) (h : field_opcode (fetch s) = 0x7c0) :
    mem_read_32 (process_instruction s).MEM
        (((s.CURRENT_STATE.REGS (field_Rn (fetch s)) : Int)
          + extract_imm9 (fetch s)) % 2 ^ 32).toNat
        = s.CURRENT_STATE.REGS (field_Rd (fetch s)) % 2 ^ 32
      ∧ ∀ a : Nat,
          (a < (((s.CURRENT_STATE.REGS (field_Rn (fetch s)) : Int)
              + extract_imm9 (fetch s)) % 2 ^ 32).toNat
            ∨ (((s.CURRENT_STATE.REGS (field_Rn (fetch s)) : Int)
              + extract_imm9 (fetch s)) % 2 ^ 32).toNat + 4 ≤ a) →
          (process_instruction s).MEM a = s.MEM a := by
  rw [process_instruction_stur s h]
  show mem_read_32 (case_STUR s (fetch s)).MEM _ = _
    ∧ ∀ a : Nat, _ → (case_STUR s (fetch s)).MEM a = s.MEM a
  unfold case_STUR
  dsimp only
  generalize (((s.CURRENT_STATE.REGS (field_Rn (fetch s)) : Int)
          + extract_imm9 (fetch s)) % 2 ^ 32).toNat = addr
  refine ⟨mem_read_32_write_same _ _ _, ?_⟩
  intro a ha
  unfold mem_write_32
  have e0 : ¬ (a = addr) := by omega
  have e1 : ¬ (a = addr + 1) := by omega
  have e2 : ¬ (a = addr + 2) := by omega
  have e3 : ¬ (a = addr + 3) := by omega
  simp only [if_false, e0, e1, e2, e3]

end ArmSim
